import Mathlib

/-!
# Verification of `src/core/security/secure_endpoint.c`

Shallow embedding of the secure stream endpoint: the read (decrypt) pipeline
`on_read` / `endpoint_read`, the write (encrypt) pipeline `endpoint_write`,
staging-buffer management, leftover-byte replay and the reference-counted
lifecycle.  Byte slices are lists of naturals, a `gpr_slice_buffer` is a list
of slices, and the staging buffers are represented by the written prefix
(the bytes between the slice start and `cur`) together with the number of
free bytes (`end - cur`).  The external TSI frame protector is a parameter:
a state machine with `protect` / `unprotect` / `protect_flush` steps.  Each
operation additionally returns the list of instrumentation events (mutex
lock/unlock, protector calls with their result and byte counts, staging-buffer
seals, calls into the wrapped transport, completion-callback invocations and
reference-count changes) so that ordering properties of the code can be
stated as properties of the event trace.  The drain loops of the C code are
`while` loops whose termination depends on the protector, so they take a
fuel argument and return `none` when the fuel is exhausted.
-/

namespace GrpcSecureEndpoint

/-- Contents of a `gpr_slice`: a byte string, one natural per byte. -/
abbrev Slice := List Nat

/-- Contents of a `gpr_slice_buffer`: an ordered list of slices. -/
abbrev SliceBuffer := List Slice

/-- TSI result codes.  `secure_endpoint.c` only ever tests `result != TSI_OK`,
so one failure code suffices. -/
inductive tsi_result where
  | TSI_OK
  | TSI_INTERNAL_ERROR
  deriving DecidableEq, Repr

/-- Result of one `tsi_frame_protector_protect` / `unprotect` call: the
result code, the protector state after the call, the number of input bytes
consumed (`*processed_message_size` on return) and the bytes written into
the caller-supplied output region (`*output_size` on return). -/
structure tsi_call_result (σ : Type) where
  res : tsi_result
  st : σ
  consumed : Nat
  output : Slice
  deriving DecidableEq, Repr

/-- Result of one `tsi_frame_protector_protect_flush` call. -/
structure tsi_flush_result (σ : Type) where
  res : tsi_result
  st : σ
  output : Slice
  stillPending : Nat
  deriving DecidableEq, Repr

/-- Modelled from the spec: the external TSI frame protector collaborator
(`tsi/transport_security_interface.h` is not part of this repository).  A
protector is a state machine; each call takes the current state, the input
bytes offered (`message_bytes` / `*message_size`) and the capacity of the
output region offered (`*output_size` on entry, i.e. `end - cur`), and
returns a `tsi_call_result`.  `protect_flush` takes only the output
capacity and additionally reports `*still_pending_size`. -/
structure tsi_frame_protector (σ : Type) where
  unprotect : σ → Slice → Nat → tsi_call_result σ
  protect : σ → Slice → Nat → tsi_call_result σ
  protect_flush : σ → Nat → tsi_flush_result σ

/-- Instrumentation events recorded while running the endpoint code. -/
inductive Ev where
  | lock
  | unlock
  | unprotectCall (r : tsi_result) (consumed produced : Nat)
  | protectCall (r : tsi_result) (consumed produced : Nat)
  | flushCall (r : tsi_result) (produced stillPending : Nat)
  | sealRead
  | sealWrite
  | wrappedRead
  | wrappedWrite
  | readCb (success : Bool)
  | epRef
  | epUnref
  deriving DecidableEq, Repr

/-- The `secure_endpoint` struct.  The wrapped endpoint and the protector
handle are external collaborators (modelled as parameters of the
operations); the protector's mutable state lives in `protSt`.  The two
staging `gpr_slice`s are represented by their written prefix
(`start .. cur`) and their free size (`cur .. end`). -/
structure secure_endpoint (σ : Type) where
  protSt : σ
  read_buffer : SliceBuffer
  source_buffer : SliceBuffer
  leftover_bytes : SliceBuffer
  readStagingWritten : Slice
  readStagingFree : Nat
  writeStagingWritten : Slice
  writeStagingFree : Nat
  output_buffer : SliceBuffer
  refCount : Nat
  deriving DecidableEq, Repr

/-- `grpc_endpoint_op_status`. -/
inductive grpc_endpoint_op_status where
  | DONE
  | PENDING
  | ERROR
  deriving DecidableEq, Repr

/-- Outcome of the wrapped transport's `grpc_endpoint_read`: on `DONE` and
`ERROR` the transport may have deposited slices into the target buffer. -/
inductive wrapped_read_result where
  | DONE (data : SliceBuffer)
  | PENDING
  | ERROR (data : SliceBuffer)
  deriving DecidableEq, Repr

/-- `grpc_secure_endpoint_create` (lines 371-393): fresh staging buffers of
size `CAP` (`STAGING_BUFFER_SIZE` is 8192 in the source; it is kept as a
parameter here), leftover handshake bytes copied in, refcount 1. -/
def grpc_secure_endpoint_create (s0 : σ) (leftover : SliceBuffer) (CAP : Nat) :
    secure_endpoint σ :=
  { protSt := s0
    read_buffer := []
    source_buffer := []
    leftover_bytes := leftover
    readStagingWritten := []
    readStagingFree := CAP
    writeStagingWritten := []
    writeStagingFree := CAP
    output_buffer := []
    refCount := 1 }

/-- `secure_endpoint_unref` (lines 88-95): decrement; when the count reaches
zero the endpoint is destroyed (second component `true`). -/
def secure_endpoint_unref (ep : secure_endpoint σ) :
    secure_endpoint σ × Bool × List Ev :=
  ({ ep with refCount := ep.refCount - 1 }, ep.refCount - 1 == 0, [Ev.epUnref])

/-- `secure_endpoint_ref` (lines 97-102). -/
def secure_endpoint_ref (ep : secure_endpoint σ) :
    secure_endpoint σ × List Ev :=
  ({ ep with refCount := ep.refCount + 1 }, [Ev.epRef])

/-- `endpoint_destroy` (lines 343-346): releases the application's
reference. -/
def endpoint_destroy (ep : secure_endpoint σ) :
    secure_endpoint σ × Bool × List Ev :=
  secure_endpoint_unref ep

/-- `flush_read_staging_buffer` (lines 116-122): seal the (full) read
staging slice into the destination list and replace it by a fresh slice of
size `CAP`; `cur`/`end` are reset to the fresh slice. -/
def flush_read_staging_buffer (CAP : Nat) (ep : secure_endpoint σ) :
    secure_endpoint σ :=
  { ep with read_buffer := ep.read_buffer ++ [ep.readStagingWritten]
            readStagingWritten := []
            readStagingFree := CAP }

/-- `flush_write_staging_buffer` (lines 250-256). -/
def flush_write_staging_buffer (CAP : Nat) (ep : secure_endpoint σ) :
    secure_endpoint σ :=
  { ep with output_buffer := ep.output_buffer ++ [ep.writeStagingWritten]
            writeStagingWritten := []
            writeStagingFree := CAP }

/-- The inner drain loop of `on_read` (lines 158-187):
`while (message_size > 0 || keep_looping)`.  One iteration locks the
protector mutex, calls `tsi_frame_protector_unprotect` with the remaining
message bytes and the staging buffer's free region, unlocks, breaks on
failure, advances the input by `consumed` and the staging cursor by the
produced bytes; if the staging buffer became full it is sealed and
`keep_looping` is forced to 1, otherwise `keep_looping` is 1 exactly when
the call produced output.  Returns the result code, the final
`keep_looping`, the endpoint state and the events of this loop, or `none`
when `fuel` iterations did not suffice. -/
def unprotect_loop (P : tsi_frame_protector σ) (CAP : Nat) :
    Nat → Slice → Bool → secure_endpoint σ →
    Option (tsi_result × Bool × secure_endpoint σ × List Ev)
  | 0, _, _, _ => none
  | fuel + 1, message, keep_looping, ep =>
    if 0 < message.length ∨ keep_looping = true then
      let r := P.unprotect ep.protSt message ep.readStagingFree
      let evs := [Ev.lock, Ev.unprotectCall r.res r.consumed r.output.length,
                  Ev.unlock]
      let ep1 : secure_endpoint σ := { ep with protSt := r.st }
      if r.res ≠ tsi_result.TSI_OK then
        some (r.res, keep_looping, ep1, evs)
      else
        let message1 := message.drop r.consumed
        let ep2 : secure_endpoint σ :=
          { ep1 with readStagingWritten := ep1.readStagingWritten ++ r.output
                     readStagingFree := ep1.readStagingFree - r.output.length }
        if ep2.readStagingFree = 0 then
          match unprotect_loop P CAP fuel message1 true
              (flush_read_staging_buffer CAP ep2) with
          | none => none
          | some (res, k, ep', evs') =>
            some (res, k, ep', evs ++ Ev.sealRead :: evs')
        else if 0 < r.output.length then
          match unprotect_loop P CAP fuel message1 true ep2 with
          | none => none
          | some (res, k, ep', evs') => some (res, k, ep', evs ++ evs')
        else
          match unprotect_loop P CAP fuel message1 false ep2 with
          | none => none
          | some (res, k, ep', evs') => some (res, k, ep', evs ++ evs')
    else some (tsi_result.TSI_OK, keep_looping, ep, [])

/-- The outer `for` loop of `on_read` (lines 153-189): run the drain loop
for every slice of the source buffer, breaking as soon as a result is not
`TSI_OK`.  `keep_looping` is declared outside the `for` loop in the C code,
so it is threaded through. -/
def drain_source_slices (P : tsi_frame_protector σ) (CAP fuel : Nat) :
    SliceBuffer → Bool → secure_endpoint σ →
    Option (tsi_result × Bool × secure_endpoint σ × List Ev)
  | [], keep, ep => some (tsi_result.TSI_OK, keep, ep, [])
  | encrypted :: rest, keep, ep =>
    match unprotect_loop P CAP fuel encrypted keep ep with
    | none => none
    | some (res, k, ep1, evs1) =>
      if res ≠ tsi_result.TSI_OK then some (res, k, ep1, evs1)
      else
        match drain_source_slices P CAP fuel rest k ep1 with
        | none => none
        | some (res2, k2, ep2, evs2) => some (res2, k2, ep2, evs1 ++ evs2)

/-- `on_read` (lines 139-209).  On `success = 0` the destination list is
reset and `0` is returned at once (lines 147-150) — note that this early
return skips both the final `split_head` and the reset of the source
buffer.  Otherwise `cur`/`end` are initialised to the start and end of the
read staging slice, every source slice is drained, any unsealed partial
staging prefix is split off into the destination list, the source buffer is
reset, and on a crypto failure the destination list is reset and `0`
returned. -/
def on_read (P : tsi_frame_protector σ) (CAP fuel : Nat) (success : Bool)
    (ep : secure_endpoint σ) :
    Option (Bool × secure_endpoint σ × List Ev) :=
  if success = false then
    some (false, { ep with read_buffer := [] }, [])
  else
    let ep0 : secure_endpoint σ :=
      { ep with readStagingWritten := []
                readStagingFree :=
                  ep.readStagingWritten.length + ep.readStagingFree }
    match drain_source_slices P CAP fuel ep0.source_buffer false ep0 with
    | none => none
    | some (res, _, ep1, evs) =>
      let ep2 : secure_endpoint σ :=
        if 0 < ep1.readStagingWritten.length then
          { ep1 with read_buffer := ep1.read_buffer ++ [ep1.readStagingWritten]
                     readStagingWritten := [] }
        else ep1
      let ep3 : secure_endpoint σ := { ep2 with source_buffer := [] }
      if res ≠ tsi_result.TSI_OK then
        some (false, { ep3 with read_buffer := [] }, evs)
      else
        some (true, ep3, evs)

/-- `call_read_cb` (lines 124-137): invoke the saved upper-level read
callback with the given success flag, then release the "read" reference. -/
def call_read_cb (ep : secure_endpoint σ) (success : Bool) :
    secure_endpoint σ × Bool × List Ev :=
  let u := secure_endpoint_unref ep
  (u.1, u.2.1, Ev.readCb success :: u.2.2)

/-- `on_read_cb` (lines 211-213): the resumption closure registered with
the wrapped transport; `arrived` are the slices the transport deposited in
the source buffer before invoking the closure. -/
def on_read_cb (P : tsi_frame_protector σ) (CAP fuel : Nat)
    (arrived : SliceBuffer) (success : Bool) (ep : secure_endpoint σ) :
    Option (secure_endpoint σ × Bool × List Ev) :=
  let epA : secure_endpoint σ :=
    { ep with source_buffer := ep.source_buffer ++ arrived }
  match on_read P CAP fuel success epA with
  | none => none
  | some (ok, ep1, evs) =>
    let c := call_read_cb ep1 ok
    some (c.1, c.2.1, evs ++ c.2.2)

/-- `endpoint_read` (lines 215-248).  The caller's destination buffer is
`ep.read_buffer`; it is reset first.  If leftover handshake bytes are
present they are swapped wholesale into the source buffer (the assertion
`GPR_ASSERT(ep->leftover_bytes.count == 0)` after the swap aborts — `none`
— if the source buffer was not empty) and drained synchronously.
Otherwise a "read" reference is taken and the wrapped transport's read is
issued; on `PENDING` the status is returned as is, on immediate completion
or error `on_read` runs synchronously and the reference is released. -/
def endpoint_read (P : tsi_frame_protector σ) (CAP fuel : Nat)
    (wrapped : wrapped_read_result) (ep : secure_endpoint σ) :
    Option (grpc_endpoint_op_status × secure_endpoint σ × List Ev) :=
  let ep0 : secure_endpoint σ := { ep with read_buffer := [] }
  if 0 < ep0.leftover_bytes.length then
    let ep1 : secure_endpoint σ :=
      { ep0 with leftover_bytes := ep0.source_buffer
                 source_buffer := ep0.leftover_bytes }
    if ep1.leftover_bytes.length ≠ 0 then none
    else
      match on_read P CAP fuel true ep1 with
      | none => none
      | some (succ, ep2, evs) =>
        some (if succ then grpc_endpoint_op_status.DONE
              else grpc_endpoint_op_status.ERROR, ep2, evs)
  else
    let r := secure_endpoint_ref ep0
    match wrapped with
    | wrapped_read_result.DONE data =>
      let epR : secure_endpoint σ :=
        { r.1 with source_buffer := r.1.source_buffer ++ data }
      match on_read P CAP fuel true epR with
      | none => none
      | some (succ, ep2, evs) =>
        let u := secure_endpoint_unref ep2
        some (if succ then grpc_endpoint_op_status.DONE
              else grpc_endpoint_op_status.ERROR, u.1,
              r.2 ++ Ev.wrappedRead :: evs ++ u.2.2)
    | wrapped_read_result.PENDING =>
      some (grpc_endpoint_op_status.PENDING, r.1, r.2 ++ [Ev.wrappedRead])
    | wrapped_read_result.ERROR data =>
      let epR : secure_endpoint σ :=
        { r.1 with source_buffer := r.1.source_buffer ++ data }
      match on_read P CAP fuel false epR with
      | none => none
      | some (succ, ep2, evs) =>
        let u := secure_endpoint_unref ep2
        some (if succ then grpc_endpoint_op_status.DONE
              else grpc_endpoint_op_status.ERROR, u.1,
              r.2 ++ Ev.wrappedRead :: evs ++ u.2.2)

/-- The per-slice encrypt loop of `endpoint_write` (lines 282-302):
`while (message_size > 0)`.  Identical cursor management to the read loop,
but without the `keep_looping` flag. -/
def protect_loop (P : tsi_frame_protector σ) (CAP : Nat) :
    Nat → Slice → secure_endpoint σ →
    Option (tsi_result × secure_endpoint σ × List Ev)
  | 0, _, _ => none
  | fuel + 1, message, ep =>
    if 0 < message.length then
      let r := P.protect ep.protSt message ep.writeStagingFree
      let evs := [Ev.lock, Ev.protectCall r.res r.consumed r.output.length,
                  Ev.unlock]
      let ep1 : secure_endpoint σ := { ep with protSt := r.st }
      if r.res ≠ tsi_result.TSI_OK then
        some (r.res, ep1, evs)
      else
        let message1 := message.drop r.consumed
        let ep2 : secure_endpoint σ :=
          { ep1 with writeStagingWritten := ep1.writeStagingWritten ++ r.output
                     writeStagingFree := ep1.writeStagingFree - r.output.length }
        if ep2.writeStagingFree = 0 then
          match protect_loop P CAP fuel message1
              (flush_write_staging_buffer CAP ep2) with
          | none => none
          | some (res, ep', evs') =>
            some (res, ep', evs ++ Ev.sealWrite :: evs')
        else
          match protect_loop P CAP fuel message1 ep2 with
          | none => none
          | some (res, ep', evs') => some (res, ep', evs ++ evs')
    else some (tsi_result.TSI_OK, ep, [])

/-- The outer `for` loop of `endpoint_write` (lines 278-304), breaking on
the first failure. -/
def protect_slices (P : tsi_frame_protector σ) (CAP fuel : Nat) :
    SliceBuffer → secure_endpoint σ →
    Option (tsi_result × secure_endpoint σ × List Ev)
  | [], ep => some (tsi_result.TSI_OK, ep, [])
  | plain :: rest, ep =>
    match protect_loop P CAP fuel plain ep with
    | none => none
    | some (res, ep1, evs1) =>
      if res ≠ tsi_result.TSI_OK then some (res, ep1, evs1)
      else
        match protect_slices P CAP fuel rest ep1 with
        | none => none
        | some (res2, ep2, evs2) => some (res2, ep2, evs1 ++ evs2)

/-- The flush phase of `endpoint_write` (lines 305-319): a `do while`
loop, so `tsi_frame_protector_protect_flush` is called at least once; the
loop repeats while `still_pending_size > 0`, sealing the staging buffer
whenever it fills. -/
def flush_loop (P : tsi_frame_protector σ) (CAP : Nat) :
    Nat → secure_endpoint σ →
    Option (tsi_result × secure_endpoint σ × List Ev)
  | 0, _ => none
  | fuel + 1, ep =>
    let f := P.protect_flush ep.protSt ep.writeStagingFree
    let evs := [Ev.lock, Ev.flushCall f.res f.output.length f.stillPending,
                Ev.unlock]
    let ep1 : secure_endpoint σ := { ep with protSt := f.st }
    if f.res ≠ tsi_result.TSI_OK then
      some (f.res, ep1, evs)
    else
      let ep2 : secure_endpoint σ :=
        { ep1 with writeStagingWritten := ep1.writeStagingWritten ++ f.output
                   writeStagingFree := ep1.writeStagingFree - f.output.length }
      if ep2.writeStagingFree = 0 then
        if 0 < f.stillPending then
          match flush_loop P CAP fuel (flush_write_staging_buffer CAP ep2) with
          | none => none
          | some (res, ep', evs') =>
            some (res, ep', evs ++ Ev.sealWrite :: evs')
        else some (tsi_result.TSI_OK, flush_write_staging_buffer CAP ep2,
                   evs ++ [Ev.sealWrite])
      else
        if 0 < f.stillPending then
          match flush_loop P CAP fuel ep2 with
          | none => none
          | some (res, ep', evs') => some (res, ep', evs ++ evs')
        else some (tsi_result.TSI_OK, ep2, evs)

/-- `endpoint_write` (lines 258-336).  `cur`/`end` are initialised from the
write staging slice, the output buffer is reset, every input slice is
encrypted through the staging buffer, then the flush phase drains the
protector; after the flush phase (whether or not it failed — the
`split_head` at line 320 is only guarded by the protect-phase result) the
unsealed partial staging prefix is split off into the output buffer.  On
any TSI failure the output buffer is then reset and `ERROR` returned
without touching the wrapped transport; otherwise the output buffer is
handed to the wrapped transport's write whose status (`wres`) is forwarded
unchanged. -/
def endpoint_write (P : tsi_frame_protector σ) (CAP fuel : Nat)
    (wres : grpc_endpoint_op_status) (slices : SliceBuffer)
    (ep : secure_endpoint σ) :
    Option (grpc_endpoint_op_status × secure_endpoint σ × List Ev) :=
  let ep0 : secure_endpoint σ :=
    { ep with writeStagingWritten := []
              writeStagingFree :=
                ep.writeStagingWritten.length + ep.writeStagingFree
              output_buffer := [] }
  match protect_slices P CAP fuel slices ep0 with
  | none => none
  | some (res, ep1, evs1) =>
    if res ≠ tsi_result.TSI_OK then
      some (grpc_endpoint_op_status.ERROR, { ep1 with output_buffer := [] },
            evs1)
    else
      match flush_loop P CAP fuel ep1 with
      | none => none
      | some (res2, ep2, evs2) =>
        let ep3 : secure_endpoint σ :=
          if 0 < ep2.writeStagingWritten.length then
            { ep2 with output_buffer :=
                         ep2.output_buffer ++ [ep2.writeStagingWritten]
                       writeStagingWritten := [] }
          else ep2
        if res2 ≠ tsi_result.TSI_OK then
          some (grpc_endpoint_op_status.ERROR,
                { ep3 with output_buffer := [] }, evs1 ++ evs2)
        else
          some (wres, ep3, evs1 ++ evs2 ++ [Ev.wrappedWrite])

/-- Write followed by feeding the resulting ciphertext output list through
the read path on a second endpoint (the round-trip composition of §8 of
the design): both endpoints freshly created with staging capacity `CAP`,
the writer's `output_buffer` becomes the reader's `source_buffer`. -/
def write_then_read (Pw : tsi_frame_protector σ) (Pr : tsi_frame_protector τ)
    (CAP fuelW fuelR : Nat) (slices : SliceBuffer) (sw0 : σ) (sr0 : τ) :
    Option (Bool × SliceBuffer) :=
  match endpoint_write Pw CAP fuelW grpc_endpoint_op_status.DONE slices
      (grpc_secure_endpoint_create sw0 [] CAP) with
  | none => none
  | some (_, epw, _) =>
    match on_read Pr CAP fuelR true
        { grpc_secure_endpoint_create sr0 [] CAP with
          source_buffer := epw.output_buffer } with
    | none => none
    | some (succ, epr, _) => some (succ, epr.read_buffer)

/-! ## Trace observations -/

/-- Is the event a protector call (of any of the three kinds)? -/
def isProtectorCall : Ev → Bool
  | Ev.unprotectCall _ _ _ => true
  | Ev.protectCall _ _ _ => true
  | Ev.flushCall _ _ _ => true
  | _ => false

/-- Is the event an `unprotect` call? -/
def isUnprotectCall : Ev → Bool
  | Ev.unprotectCall _ _ _ => true
  | _ => false

/-- Is the event a `protect_flush` call? -/
def isFlushCall : Ev → Bool
  | Ev.flushCall _ _ _ => true
  | _ => false

/-- Is the event a protector call that returned a failure? -/
def isFailedCall : Ev → Bool
  | Ev.unprotectCall r _ _ => r ≠ tsi_result.TSI_OK
  | Ev.protectCall r _ _ => r ≠ tsi_result.TSI_OK
  | Ev.flushCall r _ _ => r ≠ tsi_result.TSI_OK
  | _ => false

/-- Is the event a reference-count change? -/
def isRefChange : Ev → Bool
  | Ev.epRef => true
  | Ev.epUnref => true
  | _ => false

/-- Is the event an invocation of the saved read completion closure? -/
def isReadCbCall : Ev → Bool
  | Ev.readCb _ => true
  | _ => false

/-- Total input bytes consumed by the `unprotect` calls of a trace. -/
def unprotectConsumed : List Ev → Nat
  | [] => 0
  | Ev.unprotectCall _ c _ :: t => c + unprotectConsumed t
  | _ :: t => unprotectConsumed t

/-- Bytes produced by the last `unprotect` call of a trace, continuing from
a previously seen value. -/
def lastUnprotectProducedFrom (a : Option Nat) : List Ev → Option Nat
  | [] => a
  | Ev.unprotectCall _ _ p :: t => lastUnprotectProducedFrom (some p) t
  | _ :: t => lastUnprotectProducedFrom a t

/-- Bytes produced by the last `unprotect` call of a trace. -/
def lastUnprotectProduced (l : List Ev) : Option Nat :=
  lastUnprotectProducedFrom none l

/-- `still_pending_size` reported by the last `protect_flush` call of a
trace, continuing from a previously seen value. -/
def lastFlushPendingFrom (a : Option Nat) : List Ev → Option Nat
  | [] => a
  | Ev.flushCall _ _ p :: t => lastFlushPendingFrom (some p) t
  | _ :: t => lastFlushPendingFrom a t

/-- `still_pending_size` reported by the last `protect_flush` call. -/
def lastFlushPending (l : List Ev) : Option Nat :=
  lastFlushPendingFrom none l

/-- Does the trace contain an `unprotect` call? -/
def hasUnprotectCall : List Ev → Bool
  | [] => false
  | Ev.unprotectCall _ _ _ :: _ => true
  | _ :: t => hasUnprotectCall t

/-- Every `sealRead` event of the trace is followed (strictly later) by a
further `unprotect` call. -/
def sealsFollowedByCall : List Ev → Bool
  | [] => true
  | Ev.sealRead :: t => hasUnprotectCall t && sealsFollowedByCall t
  | _ :: t => sealsFollowedByCall t

/-- Mutex discipline of a trace: every protector call is immediately
preceded by `lock` and immediately followed by `unlock`, each critical
section contains exactly one protector call, and `lock`/`unlock` occur
nowhere else (in particular the mutex is never held across a whole drain
loop or across a staging-buffer seal). -/
def lockCheck : List Ev → Bool
  | [] => true
  | Ev.lock :: Ev.unprotectCall _ _ _ :: Ev.unlock :: t => lockCheck t
  | Ev.lock :: Ev.protectCall _ _ _ :: Ev.unlock :: t => lockCheck t
  | Ev.lock :: Ev.flushCall _ _ _ :: Ev.unlock :: t => lockCheck t
  | Ev.lock :: _ => false
  | Ev.unlock :: _ => false
  | Ev.unprotectCall _ _ _ :: _ => false
  | Ev.protectCall _ _ _ :: _ => false
  | Ev.flushCall _ _ _ :: _ => false
  | _ :: t => lockCheck t

/-! ## Protector instances and assumptions -/

/-- Basic well-formedness of a protector implementation (the §4.1
contract): a call never consumes more input bytes than offered. -/
def ConsumesWithinInput (P : tsi_frame_protector σ) : Prop :=
  ∀ s m c, (P.unprotect s m c).consumed ≤ m.length

/-- Modelled from the spec: a "matching pair" of protector instances as in
the round-trip property of §8.  A protector is faithful with respect to an
abstraction function `abs` (the bytes it currently buffers) when every call
succeeds, consumes at most the offered input, appends the consumed bytes to
its buffer and eagerly emits as much of the front of its buffer as the
offered output capacity allows; `protect_flush` emits buffered bytes the
same way and reports the number of bytes still buffered.  Running the
`protect` direction of one faithful instance and the `unprotect` direction
of another composes to the identity on byte streams, which is the §8
meaning of "matching protector instances". -/
structure IdFaithful (P : tsi_frame_protector σ) (abs : σ → Slice) : Prop where
  unprotect_res : ∀ s m c, (P.unprotect s m c).res = tsi_result.TSI_OK
  unprotect_consumed : ∀ s m c, (P.unprotect s m c).consumed ≤ m.length
  unprotect_output : ∀ s m c, (P.unprotect s m c).output
      = (abs s ++ m.take (P.unprotect s m c).consumed).take c
  unprotect_abs : ∀ s m c, abs (P.unprotect s m c).st
      = (abs s ++ m.take (P.unprotect s m c).consumed).drop c
  protect_res : ∀ s m c, (P.protect s m c).res = tsi_result.TSI_OK
  protect_consumed : ∀ s m c, (P.protect s m c).consumed ≤ m.length
  protect_output : ∀ s m c, (P.protect s m c).output
      = (abs s ++ m.take (P.protect s m c).consumed).take c
  protect_abs : ∀ s m c, abs (P.protect s m c).st
      = (abs s ++ m.take (P.protect s m c).consumed).drop c
  flush_res : ∀ s c, (P.protect_flush s c).res = tsi_result.TSI_OK
  flush_output : ∀ s c, (P.protect_flush s c).output = (abs s).take c
  flush_abs : ∀ s c, abs (P.protect_flush s c).st = (abs s).drop c
  flush_pending : ∀ s c,
      (P.protect_flush s c).stillPending = (abs (P.protect_flush s c).st).length

/-- A concrete faithful protector: its state is its buffer of pending
bytes; every call consumes the whole offered input and emits as much of
the buffer front as the output capacity allows. -/
def idProt : tsi_frame_protector Slice :=
  { unprotect := fun s m c =>
      { res := tsi_result.TSI_OK, st := (s ++ m).drop c, consumed := m.length,
        output := (s ++ m).take c }
    protect := fun s m c =>
      { res := tsi_result.TSI_OK, st := (s ++ m).drop c, consumed := m.length,
        output := (s ++ m).take c }
    protect_flush := fun s c =>
      { res := tsi_result.TSI_OK, st := s.drop c, output := s.take c,
        stillPending := (s.drop c).length } }

/-- `idProt` is faithful with the identity abstraction. -/
theorem idProt_faithful : IdFaithful idProt (fun s => s) := by
  constructor <;> intro s m <;> simp [idProt, List.take_of_length_le]

/-- A protector whose calls all fail, for exercising the failure paths. -/
def failProt : tsi_frame_protector Unit :=
  { unprotect := fun _ _ _ =>
      { res := tsi_result.TSI_INTERNAL_ERROR, st := (), consumed := 0,
        output := [] }
    protect := fun _ _ _ =>
      { res := tsi_result.TSI_INTERNAL_ERROR, st := (), consumed := 0,
        output := [] }
    protect_flush := fun _ _ =>
      { res := tsi_result.TSI_INTERNAL_ERROR, st := (), output := [],
        stillPending := 0 } }

/-! ## Structural lemmas about the read drain loop -/

/-- Events a read drain loop may emit. -/
def isReadLoopEv : Ev → Bool
  | Ev.lock => true
  | Ev.unlock => true
  | Ev.unprotectCall _ _ _ => true
  | Ev.sealRead => true
  | _ => false

/-- Events a write-side loop may emit. -/
def isWriteLoopEv : Ev → Bool
  | Ev.lock => true
  | Ev.unlock => true
  | Ev.protectCall _ _ _ => true
  | Ev.flushCall _ _ _ => true
  | Ev.sealWrite => true
  | _ => false

theorem unprotect_loop_shape (P : tsi_frame_protector σ) (CAP : Nat) :
    ∀ (fuel : Nat) (msg : Slice) (keep : Bool) (ep : secure_endpoint σ)
      (out : tsi_result × Bool × secure_endpoint σ × List Ev),
      unprotect_loop P CAP fuel msg keep ep = some out →
      out.2.2.1.leftover_bytes = ep.leftover_bytes ∧
      out.2.2.1.source_buffer = ep.source_buffer ∧
      out.2.2.1.refCount = ep.refCount ∧
      out.2.2.1.writeStagingWritten = ep.writeStagingWritten ∧
      out.2.2.1.writeStagingFree = ep.writeStagingFree ∧
      out.2.2.1.output_buffer = ep.output_buffer ∧
      out.2.2.2.all isReadLoopEv = true := by
  intro fuel
  induction fuel with
  | zero => intro msg keep ep out h; simp [unprotect_loop] at h
  | succ n ih =>
    intro msg keep ep out h
    simp only [unprotect_loop] at h
    split at h
    · split at h
      · cases h
        simp_all [isReadLoopEv, isFailedCall]
      · split at h
        · split at h
          · exact absurd h (by simp)
          · rename_i heq
            cases h
            have := ih _ _ _ _ heq
            simp_all [flush_read_staging_buffer, isReadLoopEv]
        · split at h
          · split at h
            · exact absurd h (by simp)
            · rename_i heq
              cases h
              have := ih _ _ _ _ heq
              simp_all [isReadLoopEv]
          · split at h
            · exact absurd h (by simp)
            · rename_i heq
              cases h
              have := ih _ _ _ _ heq
              simp_all [isReadLoopEv]
    · cases h
      simp_all

theorem drain_source_slices_shape (P : tsi_frame_protector σ) (CAP fuel : Nat) :
    ∀ (bufs : SliceBuffer) (keep : Bool) (ep : secure_endpoint σ)
      (out : tsi_result × Bool × secure_endpoint σ × List Ev),
      drain_source_slices P CAP fuel bufs keep ep = some out →
      out.2.2.1.leftover_bytes = ep.leftover_bytes ∧
      out.2.2.1.source_buffer = ep.source_buffer ∧
      out.2.2.1.refCount = ep.refCount ∧
      out.2.2.1.writeStagingWritten = ep.writeStagingWritten ∧
      out.2.2.1.writeStagingFree = ep.writeStagingFree ∧
      out.2.2.1.output_buffer = ep.output_buffer ∧
      out.2.2.2.all isReadLoopEv = true := by
  intro bufs
  induction bufs with
  | nil => intro keep ep out h; cases h; simp_all [drain_source_slices]
  | cons s rest ih =>
    intro keep ep out h
    simp only [drain_source_slices] at h
    split at h
    · exact absurd h (by simp)
    · rename_i heq1
      have h1 := unprotect_loop_shape P CAP fuel s keep ep _ heq1
      split at h
      · cases h; simp_all
      · split at h
        · exact absurd h (by simp)
        · rename_i heq2
          have h2 := ih _ _ _ heq2
          cases h
          simp_all

theorem protect_loop_shape (P : tsi_frame_protector σ) (CAP : Nat) :
    ∀ (fuel : Nat) (msg : Slice) (ep : secure_endpoint σ)
      (out : tsi_result × secure_endpoint σ × List Ev),
      protect_loop P CAP fuel msg ep = some out →
      out.2.1.leftover_bytes = ep.leftover_bytes ∧
      out.2.1.source_buffer = ep.source_buffer ∧
      out.2.1.refCount = ep.refCount ∧
      out.2.1.read_buffer = ep.read_buffer ∧
      out.2.1.readStagingWritten = ep.readStagingWritten ∧
      out.2.1.readStagingFree = ep.readStagingFree ∧
      out.2.2.all isWriteLoopEv = true := by
  intro fuel
  induction fuel with
  | zero => intro msg ep out h; simp [protect_loop] at h
  | succ n ih =>
    intro msg ep out h
    simp only [protect_loop] at h
    split at h
    · split at h
      · cases h
        simp_all [isWriteLoopEv]
      · split at h
        · split at h
          · exact absurd h (by simp)
          · rename_i heq
            cases h
            have := ih _ _ _ heq
            simp_all [flush_write_staging_buffer, isWriteLoopEv]
        · split at h
          · exact absurd h (by simp)
          · rename_i heq
            cases h
            have := ih _ _ _ heq
            simp_all [isWriteLoopEv]
    · cases h
      simp_all

theorem protect_slices_shape (P : tsi_frame_protector σ) (CAP fuel : Nat) :
    ∀ (bufs : SliceBuffer) (ep : secure_endpoint σ)
      (out : tsi_result × secure_endpoint σ × List Ev),
      protect_slices P CAP fuel bufs ep = some out →
      out.2.1.leftover_bytes = ep.leftover_bytes ∧
      out.2.1.source_buffer = ep.source_buffer ∧
      out.2.1.refCount = ep.refCount ∧
      out.2.1.read_buffer = ep.read_buffer ∧
      out.2.1.readStagingWritten = ep.readStagingWritten ∧
      out.2.1.readStagingFree = ep.readStagingFree ∧
      out.2.2.all isWriteLoopEv = true := by
  intro bufs
  induction bufs with
  | nil => intro ep out h; cases h; simp_all [protect_slices]
  | cons s rest ih =>
    intro ep out h
    simp only [protect_slices] at h
    split at h
    · exact absurd h (by simp)
    · rename_i heq1
      have h1 := protect_loop_shape P CAP fuel s ep _ heq1
      split at h
      · cases h; simp_all
      · split at h
        · exact absurd h (by simp)
        · rename_i heq2
          have h2 := ih _ _ heq2
          cases h
          simp_all

theorem flush_loop_shape (P : tsi_frame_protector σ) (CAP : Nat) :
    ∀ (fuel : Nat) (ep : secure_endpoint σ)
      (out : tsi_result × secure_endpoint σ × List Ev),
      flush_loop P CAP fuel ep = some out →
      out.2.1.leftover_bytes = ep.leftover_bytes ∧
      out.2.1.source_buffer = ep.source_buffer ∧
      out.2.1.refCount = ep.refCount ∧
      out.2.1.read_buffer = ep.read_buffer ∧
      out.2.1.readStagingWritten = ep.readStagingWritten ∧
      out.2.1.readStagingFree = ep.readStagingFree ∧
      out.2.2.all isWriteLoopEv = true := by
  intro fuel
  induction fuel with
  | zero => intro ep out h; simp [flush_loop] at h
  | succ n ih =>
    intro ep out h
    simp only [flush_loop] at h
    split at h
    · cases h
      simp_all [isWriteLoopEv]
    · split at h
      · split at h
        · split at h
          · exact absurd h (by simp)
          · rename_i heq
            cases h
            have := ih _ _ heq
            simp_all [flush_write_staging_buffer, isWriteLoopEv]
        · cases h
          simp_all [flush_write_staging_buffer, isWriteLoopEv]
      · split at h
        · split at h
          · exact absurd h (by simp)
          · rename_i heq
            cases h
            have := ih _ _ heq
            simp_all [isWriteLoopEv]
        · cases h
          simp_all [isWriteLoopEv]

/-! ## Result codes versus failed-call events -/

theorem unprotect_loop_fail (P : tsi_frame_protector σ) (CAP : Nat) :
    ∀ (fuel : Nat) (msg : Slice) (keep : Bool) (ep : secure_endpoint σ)
      (out : tsi_result × Bool × secure_endpoint σ × List Ev),
      unprotect_loop P CAP fuel msg keep ep = some out →
      (out.1 = tsi_result.TSI_OK ↔ out.2.2.2.any isFailedCall = false) := by
  intro fuel
  induction fuel with
  | zero => intro msg keep ep out h; simp [unprotect_loop] at h
  | succ n ih =>
    intro msg keep ep out h
    simp only [unprotect_loop] at h
    split at h
    · split at h
      · cases h; simp_all [isFailedCall]
      · rename_i hok
        split at h
        · split at h
          · exact absurd h (by simp)
          · rename_i heq
            cases h
            have := ih _ _ _ _ heq
            simp_all [isFailedCall]
        · split at h
          · split at h
            · exact absurd h (by simp)
            · rename_i heq
              cases h
              have := ih _ _ _ _ heq
              simp_all [isFailedCall]
          · split at h
            · exact absurd h (by simp)
            · rename_i heq
              cases h
              have := ih _ _ _ _ heq
              simp_all [isFailedCall]
    · cases h; simp_all

theorem drain_source_slices_fail (P : tsi_frame_protector σ) (CAP fuel : Nat) :
    ∀ (bufs : SliceBuffer) (keep : Bool) (ep : secure_endpoint σ)
      (out : tsi_result × Bool × secure_endpoint σ × List Ev),
      drain_source_slices P CAP fuel bufs keep ep = some out →
      (out.1 = tsi_result.TSI_OK ↔ out.2.2.2.any isFailedCall = false) := by
  intro bufs
  induction bufs with
  | nil => intro keep ep out h; cases h; simp_all [drain_source_slices]
  | cons s rest ih =>
    intro keep ep out h
    simp only [drain_source_slices] at h
    split at h
    · exact absurd h (by simp)
    · rename_i heq1
      have h1 := unprotect_loop_fail P CAP fuel s keep ep _ heq1
      split at h
      · cases h; simp_all
      · split at h
        · exact absurd h (by simp)
        · rename_i heq2
          have h2 := ih _ _ _ heq2
          cases h
          simp_all

theorem protect_loop_fail (P : tsi_frame_protector σ) (CAP : Nat) :
    ∀ (fuel : Nat) (msg : Slice) (ep : secure_endpoint σ)
      (out : tsi_result × secure_endpoint σ × List Ev),
      protect_loop P CAP fuel msg ep = some out →
      (out.1 = tsi_result.TSI_OK ↔ out.2.2.any isFailedCall = false) := by
  intro fuel
  induction fuel with
  | zero => intro msg ep out h; simp [protect_loop] at h
  | succ n ih =>
    intro msg ep out h
    simp only [protect_loop] at h
    split at h
    · split at h
      · cases h; simp_all [isFailedCall]
      · split at h
        · split at h
          · exact absurd h (by simp)
          · rename_i heq
            cases h
            have := ih _ _ _ heq
            simp_all [isFailedCall]
        · split at h
          · exact absurd h (by simp)
          · rename_i heq
            cases h
            have := ih _ _ _ heq
            simp_all [isFailedCall]
    · cases h; simp_all

theorem protect_slices_fail (P : tsi_frame_protector σ) (CAP fuel : Nat) :
    ∀ (bufs : SliceBuffer) (ep : secure_endpoint σ)
      (out : tsi_result × secure_endpoint σ × List Ev),
      protect_slices P CAP fuel bufs ep = some out →
      (out.1 = tsi_result.TSI_OK ↔ out.2.2.any isFailedCall = false) := by
  intro bufs
  induction bufs with
  | nil => intro ep out h; cases h; simp_all [protect_slices]
  | cons s rest ih =>
    intro ep out h
    simp only [protect_slices] at h
    split at h
    · exact absurd h (by simp)
    · rename_i heq1
      have h1 := protect_loop_fail P CAP fuel s ep _ heq1
      split at h
      · cases h; simp_all
      · split at h
        · exact absurd h (by simp)
        · rename_i heq2
          have h2 := ih _ _ heq2
          cases h
          simp_all

theorem flush_loop_fail (P : tsi_frame_protector σ) (CAP : Nat) :
    ∀ (fuel : Nat) (ep : secure_endpoint σ)
      (out : tsi_result × secure_endpoint σ × List Ev),
      flush_loop P CAP fuel ep = some out →
      (out.1 = tsi_result.TSI_OK ↔ out.2.2.any isFailedCall = false) := by
  intro fuel
  induction fuel with
  | zero => intro ep out h; simp [flush_loop] at h
  | succ n ih =>
    intro ep out h
    simp only [flush_loop] at h
    split at h
    · cases h; simp_all [isFailedCall]
    · split at h
      · split at h
        · split at h
          · exact absurd h (by simp)
          · rename_i heq
            cases h
            have := ih _ _ heq
            simp_all [isFailedCall]
        · cases h; simp_all [isFailedCall]
      · split at h
        · split at h
          · exact absurd h (by simp)
          · rename_i heq
            cases h
            have := ih _ _ heq
            simp_all [isFailedCall]
        · cases h; simp_all [isFailedCall]

/-! ## Mutex discipline of the loops -/

theorem unprotect_loop_lock (P : tsi_frame_protector σ) (CAP : Nat) :
    ∀ (fuel : Nat) (msg : Slice) (keep : Bool) (ep : secure_endpoint σ)
      (out : tsi_result × Bool × secure_endpoint σ × List Ev),
      unprotect_loop P CAP fuel msg keep ep = some out →
      ∀ rest, lockCheck (out.2.2.2 ++ rest) = lockCheck rest := by
  intro fuel
  induction fuel with
  | zero => intro msg keep ep out h; simp [unprotect_loop] at h
  | succ n ih =>
    intro msg keep ep out h
    simp only [unprotect_loop] at h
    split at h
    · split at h
      · cases h; intro rest; simp [lockCheck]
      · split at h
        · split at h
          · exact absurd h (by simp)
          · rename_i heq
            cases h
            intro rest
            have := ih _ _ _ _ heq rest
            simp_all [lockCheck]
        · split at h
          · split at h
            · exact absurd h (by simp)
            · rename_i heq
              cases h
              intro rest
              have := ih _ _ _ _ heq rest
              simp_all [lockCheck]
          · split at h
            · exact absurd h (by simp)
            · rename_i heq
              cases h
              intro rest
              have := ih _ _ _ _ heq rest
              simp_all [lockCheck]
    · cases h; intro rest; simp

theorem drain_source_slices_lock (P : tsi_frame_protector σ) (CAP fuel : Nat) :
    ∀ (bufs : SliceBuffer) (keep : Bool) (ep : secure_endpoint σ)
      (out : tsi_result × Bool × secure_endpoint σ × List Ev),
      drain_source_slices P CAP fuel bufs keep ep = some out →
      ∀ rest, lockCheck (out.2.2.2 ++ rest) = lockCheck rest := by
  intro bufs
  induction bufs with
  | nil => intro keep ep out h; cases h; simp [drain_source_slices]
  | cons s rest0 ih =>
    intro keep ep out h
    simp only [drain_source_slices] at h
    split at h
    · exact absurd h (by simp)
    · rename_i heq1
      have h1 := unprotect_loop_lock P CAP fuel s keep ep _ heq1
      split at h
      · cases h; exact h1
      · split at h
        · exact absurd h (by simp)
        · rename_i heq2
          have h2 := ih _ _ _ heq2
          cases h
          intro rest
          simp only [List.append_assoc]
          rw [h1, h2]

theorem protect_loop_lock (P : tsi_frame_protector σ) (CAP : Nat) :
    ∀ (fuel : Nat) (msg : Slice) (ep : secure_endpoint σ)
      (out : tsi_result × secure_endpoint σ × List Ev),
      protect_loop P CAP fuel msg ep = some out →
      ∀ rest, lockCheck (out.2.2 ++ rest) = lockCheck rest := by
  intro fuel
  induction fuel with
  | zero => intro msg ep out h; simp [protect_loop] at h
  | succ n ih =>
    intro msg ep out h
    simp only [protect_loop] at h
    split at h
    · split at h
      · cases h; intro rest; simp [lockCheck]
      · split at h
        · split at h
          · exact absurd h (by simp)
          · rename_i heq
            cases h
            intro rest
            have := ih _ _ _ heq rest
            simp_all [lockCheck]
        · split at h
          · exact absurd h (by simp)
          · rename_i heq
            cases h
            intro rest
            have := ih _ _ _ heq rest
            simp_all [lockCheck]
    · cases h; intro rest; simp

theorem protect_slices_lock (P : tsi_frame_protector σ) (CAP fuel : Nat) :
    ∀ (bufs : SliceBuffer) (ep : secure_endpoint σ)
      (out : tsi_result × secure_endpoint σ × List Ev),
      protect_slices P CAP fuel bufs ep = some out →
      ∀ rest, lockCheck (out.2.2 ++ rest) = lockCheck rest := by
  intro bufs
  induction bufs with
  | nil => intro ep out h; cases h; simp [protect_slices]
  | cons s rest0 ih =>
    intro ep out h
    simp only [protect_slices] at h
    split at h
    · exact absurd h (by simp)
    · rename_i heq1
      have h1 := protect_loop_lock P CAP fuel s ep _ heq1
      split at h
      · cases h; exact h1
      · split at h
        · exact absurd h (by simp)
        · rename_i heq2
          have h2 := ih _ _ heq2
          cases h
          intro rest
          simp only [List.append_assoc]
          rw [h1, h2]

theorem flush_loop_lock (P : tsi_frame_protector σ) (CAP : Nat) :
    ∀ (fuel : Nat) (ep : secure_endpoint σ)
      (out : tsi_result × secure_endpoint σ × List Ev),
      flush_loop P CAP fuel ep = some out →
      ∀ rest, lockCheck (out.2.2 ++ rest) = lockCheck rest := by
  intro fuel
  induction fuel with
  | zero => intro ep out h; simp [flush_loop] at h
  | succ n ih =>
    intro ep out h
    simp only [flush_loop] at h
    split at h
    · cases h; intro rest; simp [lockCheck]
    · split at h
      · split at h
        · split at h
          · exact absurd h (by simp)
          · rename_i heq
            cases h
            intro rest
            have := ih _ _ heq rest
            simp_all [lockCheck]
        · cases h; intro rest; simp [lockCheck]
      · split at h
        · split at h
          · exact absurd h (by simp)
          · rename_i heq
            cases h
            intro rest
            have := ih _ _ heq rest
            simp_all [lockCheck]
        · cases h; intro rest; simp [lockCheck]

/-! ## Trace-function append lemmas -/

theorem unprotectConsumed_append :
    ∀ x y : List Ev, unprotectConsumed (x ++ y)
      = unprotectConsumed x + unprotectConsumed y := by
  intro x y
  induction x with
  | nil => simp [unprotectConsumed]
  | cons e t ih => cases e <;> simp [unprotectConsumed, ih, Nat.add_assoc]

theorem lastUnprotectProducedFrom_append :
    ∀ (x y : List Ev) (a : Option Nat),
      lastUnprotectProducedFrom a (x ++ y)
        = lastUnprotectProducedFrom (lastUnprotectProducedFrom a x) y := by
  intro x
  induction x with
  | nil => intro y a; rfl
  | cons e t ih =>
    intro y a; cases e <;> simp [lastUnprotectProducedFrom, ih]

theorem lastFlushPendingFrom_append :
    ∀ (x y : List Ev) (a : Option Nat),
      lastFlushPendingFrom a (x ++ y)
        = lastFlushPendingFrom (lastFlushPendingFrom a x) y := by
  intro x
  induction x with
  | nil => intro y a; rfl
  | cons e t ih =>
    intro y a; cases e <;> simp [lastFlushPendingFrom, ih]

/-! ## The forced extra drain pass of the read loop (claim C2) -/

/-- A drain-loop run entered with `keep_looping` set performs at least one
`unprotect` call, even when the input is exhausted. -/
theorem unprotect_loop_keep_calls (P : tsi_frame_protector σ) (CAP : Nat)
    (fuel : Nat) (msg : Slice) (ep : secure_endpoint σ)
    (out : tsi_result × Bool × secure_endpoint σ × List Ev)
    (h : unprotect_loop P CAP fuel msg true ep = some out) :
    hasUnprotectCall out.2.2.2 = true := by
  cases fuel with
  | zero => simp [unprotect_loop] at h
  | succ n =>
    simp only [unprotect_loop] at h
    rw [if_pos (by simp)] at h
    split at h
    · cases h; simp [hasUnprotectCall]
    · split at h
      · split at h
        · exact absurd h (by simp)
        · cases h; simp [hasUnprotectCall]
      · split at h
        · split at h
          · exact absurd h (by simp)
          · cases h; simp [hasUnprotectCall]
        · split at h
          · exact absurd h (by simp)
          · cases h; simp [hasUnprotectCall]

/-- Every staging-buffer seal inside the read drain loop is followed by a
further `unprotect` call. -/
theorem unprotect_loop_seals (P : tsi_frame_protector σ) (CAP : Nat) :
    ∀ (fuel : Nat) (msg : Slice) (keep : Bool) (ep : secure_endpoint σ)
      (out : tsi_result × Bool × secure_endpoint σ × List Ev),
      unprotect_loop P CAP fuel msg keep ep = some out →
      sealsFollowedByCall out.2.2.2 = true := by
  intro fuel
  induction fuel with
  | zero => intro msg keep ep out h; simp [unprotect_loop] at h
  | succ n ih =>
    intro msg keep ep out h
    simp only [unprotect_loop] at h
    split at h
    · split at h
      · cases h; simp [sealsFollowedByCall]
      · split at h
        · split at h
          · exact absurd h (by simp)
          · rename_i heq
            cases h
            have h1 := ih _ _ _ _ heq
            have h2 := unprotect_loop_keep_calls P CAP n _ _ _ heq
            simp_all [sealsFollowedByCall]
        · split at h
          · split at h
            · exact absurd h (by simp)
            · rename_i heq
              cases h
              have h1 := ih _ _ _ _ heq
              simp_all [sealsFollowedByCall]
          · split at h
            · exact absurd h (by simp)
            · rename_i heq
              cases h
              have h1 := ih _ _ _ _ heq
              simp_all [sealsFollowedByCall]
    · cases h; simp [sealsFollowedByCall]

/-- A loop entry with exhausted input and cleared `keep_looping` exits at
once without calling the protector. -/
theorem unprotect_loop_exit_now (P : tsi_frame_protector σ) (CAP : Nat)
    (fuel : Nat) (msg : Slice) (ep : secure_endpoint σ)
    (out : tsi_result × Bool × secure_endpoint σ × List Ev)
    (hm : msg.length = 0)
    (h : unprotect_loop P CAP fuel msg false ep = some out) :
    out = (tsi_result.TSI_OK, false, ep, []) := by
  cases fuel with
  | zero => simp [unprotect_loop] at h
  | succ n =>
    simp only [unprotect_loop] at h
    rw [if_neg (by simp [hm])] at h
    cases h
    rfl

/-- Exit condition of the read drain loop: a run that performed at least
one iteration and ended with `TSI_OK` consumed the whole message and its
most recent `unprotect` call produced zero output bytes. -/
theorem unprotect_loop_exit (P : tsi_frame_protector σ) (CAP : Nat)
    (hwf : ConsumesWithinInput P) :
    ∀ (fuel : Nat) (msg : Slice) (keep : Bool) (ep : secure_endpoint σ)
      (out : tsi_result × Bool × secure_endpoint σ × List Ev),
      unprotect_loop P CAP fuel msg keep ep = some out →
      out.1 = tsi_result.TSI_OK →
      0 < msg.length ∨ keep = true →
      unprotectConsumed out.2.2.2 = msg.length ∧
      ∀ a, lastUnprotectProducedFrom a out.2.2.2 = some 0 := by
  intro fuel
  induction fuel with
  | zero => intro msg keep ep out h; simp [unprotect_loop] at h
  | succ n ih =>
    intro msg keep ep out h hok hentry
    simp only [unprotect_loop] at h
    rw [if_pos (by rcases hentry with h' | h' <;> simp [h'])] at h
    split at h
    · cases h; simp_all
    · rename_i hres
      have hcons := hwf ep.protSt msg ep.readStagingFree
      split at h
      · split at h
        · exact absurd h (by simp)
        · rename_i heq
          cases h
          have h1 := ih _ _ _ _ heq (by simpa using hok) (Or.inr rfl)
          constructor
          · rw [unprotectConsumed_append]
            simp only [unprotectConsumed] at h1 ⊢
            simp [h1.1]
            omega
          · intro a
            rw [lastUnprotectProducedFrom_append]
            exact h1.2 _
      · split at h
        · split at h
          · exact absurd h (by simp)
          · rename_i heq
            cases h
            have h1 := ih _ _ _ _ heq (by simpa using hok) (Or.inr rfl)
            constructor
            · rw [unprotectConsumed_append]
              simp only [unprotectConsumed] at h1 ⊢
              simp [h1.1]
              omega
            · intro a
              rw [lastUnprotectProducedFrom_append]
              exact h1.2 _
        · rename_i hprodz
          split at h
          · exact absurd h (by simp)
          · rename_i heq
            cases h
            by_cases hm1 : 0 <
                (msg.drop (P.unprotect ep.protSt msg ep.readStagingFree).consumed).length
            · have h1 := ih _ _ _ _ heq (by simpa using hok) (Or.inl hm1)
              constructor
              · rw [unprotectConsumed_append]
                simp only [unprotectConsumed] at h1 ⊢
                simp [h1.1]
                omega
              · intro a
                rw [lastUnprotectProducedFrom_append]
                exact h1.2 _
            · have hz : (msg.drop
                  (P.unprotect ep.protSt msg ep.readStagingFree).consumed).length
                  = 0 := by omega
              have h0 := unprotect_loop_exit_now P CAP n _ _ _ hz heq
              cases h0
              have hno : ¬ 0 <
                  (P.unprotect ep.protSt msg ep.readStagingFree).output.length := by
                assumption
              constructor
              · simp only [unprotectConsumed, List.append_nil]
                simp only [List.length_drop] at hz
                omega
              · intro a
                have hlen :
                    (P.unprotect ep.protSt msg ep.readStagingFree).output.length
                      = 0 := by omega
                simp only [List.append_nil, lastUnprotectProducedFrom, hlen]

/-- The staging buffer is never left full by the read drain loop: whenever
it fills it is sealed and replaced by a fresh buffer of size `CAP`. -/
theorem unprotect_loop_free (P : tsi_frame_protector σ) (CAP : Nat)
    (hCAP : 1 ≤ CAP) :
    ∀ (fuel : Nat) (msg : Slice) (keep : Bool) (ep : secure_endpoint σ)
      (out : tsi_result × Bool × secure_endpoint σ × List Ev),
      unprotect_loop P CAP fuel msg keep ep = some out →
      1 ≤ ep.readStagingFree →
      1 ≤ out.2.2.1.readStagingFree := by
  intro fuel
  induction fuel with
  | zero => intro msg keep ep out h; simp [unprotect_loop] at h
  | succ n ih =>
    intro msg keep ep out h hfree
    simp only [unprotect_loop] at h
    split at h
    · split at h
      · cases h; simpa using hfree
      · split at h
        · split at h
          · exact absurd h (by simp)
          · rename_i heq
            cases h
            have h1 := ih _ _ _ _ heq (by simp [flush_read_staging_buffer, hCAP])
            exact h1
        · rename_i hnz
          split at h
          · split at h
            · exact absurd h (by simp)
            · rename_i heq
              cases h
              have h1 := ih _ _ _ _ heq (by simp; omega)
              exact h1
          · split at h
            · exact absurd h (by simp)
            · rename_i heq
              cases h
              have h1 := ih _ _ _ _ heq (by simp; omega)
              exact h1
    · cases h; simpa using hfree

/-! ## Flush-phase lemmas (claim C3) -/

/-- The flush `do while` loop always performs at least one `protect_flush`
call, and when it completes with `TSI_OK` its most recent call reported
zero bytes still pending. -/
theorem flush_loop_pending (P : tsi_frame_protector σ) (CAP : Nat) :
    ∀ (fuel : Nat) (ep : secure_endpoint σ)
      (out : tsi_result × secure_endpoint σ × List Ev),
      flush_loop P CAP fuel ep = some out →
      0 < out.2.2.countP isFlushCall ∧
      (out.1 = tsi_result.TSI_OK →
        ∀ a, lastFlushPendingFrom a out.2.2 = some 0) := by
  intro fuel
  induction fuel with
  | zero => intro ep out h; simp [flush_loop] at h
  | succ n ih =>
    intro ep out h
    simp only [flush_loop] at h
    split at h
    · cases h
      constructor
      · simp [isFlushCall]
      · rename_i hres
        intro hok
        exact absurd hok hres
    · split at h
      · split at h
        · split at h
          · exact absurd h (by simp)
          · rename_i heq
            cases h
            have h1 := ih _ _ heq
            constructor
            · simp only [List.countP_append, List.countP_cons, isFlushCall]
              simp
            · intro hok a
              rw [lastFlushPendingFrom_append]
              exact h1.2 (by simpa using hok) _
        · rename_i hpend
          cases h
          constructor
          · simp [isFlushCall]
          · intro _ a
            have hz : (P.protect_flush ep.protSt ep.writeStagingFree).stillPending
                = 0 := by omega
            simp [lastFlushPendingFrom, hz]
      · split at h
        · split at h
          · exact absurd h (by simp)
          · rename_i heq
            cases h
            have h1 := ih _ _ heq
            constructor
            · simp only [List.countP_append, List.countP_cons, isFlushCall]
              simp
            · intro hok a
              rw [lastFlushPendingFrom_append]
              exact h1.2 (by simpa using hok) _
        · rename_i hpend
          cases h
          constructor
          · simp [isFlushCall]
          · intro _ a
            have hz : (P.protect_flush ep.protSt ep.writeStagingFree).stillPending
                = 0 := by omega
            simp [lastFlushPendingFrom, hz]

/-- The write staging buffer is never left full by the encrypt loop. -/
theorem protect_loop_free (P : tsi_frame_protector σ) (CAP : Nat)
    (hCAP : 1 ≤ CAP) :
    ∀ (fuel : Nat) (msg : Slice) (ep : secure_endpoint σ)
      (out : tsi_result × secure_endpoint σ × List Ev),
      protect_loop P CAP fuel msg ep = some out →
      1 ≤ ep.writeStagingFree →
      1 ≤ out.2.1.writeStagingFree := by
  intro fuel
  induction fuel with
  | zero => intro msg ep out h; simp [protect_loop] at h
  | succ n ih =>
    intro msg ep out h hfree
    simp only [protect_loop] at h
    split at h
    · split at h
      · cases h; simpa using hfree
      · split at h
        · split at h
          · exact absurd h (by simp)
          · rename_i heq
            cases h
            have h1 := ih _ _ _ heq
                (by simp [flush_write_staging_buffer, hCAP])
            exact h1
        · split at h
          · exact absurd h (by simp)
          · rename_i heq
            cases h
            have h1 := ih _ _ _ heq (by simp; omega)
            exact h1
    · cases h; simpa using hfree

theorem protect_slices_free (P : tsi_frame_protector σ) (CAP fuel : Nat)
    (hCAP : 1 ≤ CAP) :
    ∀ (bufs : SliceBuffer) (ep : secure_endpoint σ)
      (out : tsi_result × secure_endpoint σ × List Ev),
      protect_slices P CAP fuel bufs ep = some out →
      1 ≤ ep.writeStagingFree →
      1 ≤ out.2.1.writeStagingFree := by
  intro bufs
  induction bufs with
  | nil => intro ep out h hf; cases h; simpa using hf
  | cons s rest ih =>
    intro ep out h hf
    simp only [protect_slices] at h
    split at h
    · exact absurd h (by simp)
    · rename_i heq1
      have h1 := protect_loop_free P CAP hCAP fuel s ep _ heq1 hf
      split at h
      · cases h; exact h1
      · split at h
        · exact absurd h (by simp)
        · rename_i heq2
          have h2 := ih _ _ heq2 h1
          cases h
          exact h2

/-- The write staging buffer is never left full by the flush loop. -/
theorem flush_loop_free (P : tsi_frame_protector σ) (CAP : Nat)
    (hCAP : 1 ≤ CAP) :
    ∀ (fuel : Nat) (ep : secure_endpoint σ)
      (out : tsi_result × secure_endpoint σ × List Ev),
      flush_loop P CAP fuel ep = some out →
      1 ≤ ep.writeStagingFree →
      1 ≤ out.2.1.writeStagingFree := by
  intro fuel
  induction fuel with
  | zero => intro ep out h; simp [flush_loop] at h
  | succ n ih =>
    intro ep out h hfree
    simp only [flush_loop] at h
    split at h
    · cases h; simpa using hfree
    · split at h
      · split at h
        · split at h
          · exact absurd h (by simp)
          · rename_i heq
            cases h
            have h1 := ih _ _ heq (by simp [flush_write_staging_buffer, hCAP])
            exact h1
        · cases h
          simp [flush_write_staging_buffer, hCAP]
      · split at h
        · split at h
          · exact absurd h (by simp)
          · rename_i heq
            cases h
            have h1 := ih _ _ heq (by simp; omega)
            exact h1
        · rename_i hnz hpend
          cases h
          simp at hnz ⊢
          omega

/-- On a `TSI_OK` result the read drain loop always hands back a cleared
`keep_looping` flag (the loop condition must have become false). -/
theorem unprotect_loop_keep_false (P : tsi_frame_protector σ) (CAP : Nat) :
    ∀ (fuel : Nat) (msg : Slice) (keep : Bool) (ep : secure_endpoint σ)
      (out : tsi_result × Bool × secure_endpoint σ × List Ev),
      unprotect_loop P CAP fuel msg keep ep = some out →
      out.1 = tsi_result.TSI_OK →
      out.2.1 = false := by
  intro fuel
  induction fuel with
  | zero => intro msg keep ep out h; simp [unprotect_loop] at h
  | succ n ih =>
    intro msg keep ep out h hok
    simp only [unprotect_loop] at h
    split at h
    · split at h
      · rename_i hres
        cases h
        exact absurd hok hres
      · split at h
        · split at h
          · exact absurd h (by simp)
          · rename_i heq
            cases h
            have h1 := ih _ _ _ _ heq (by simpa using hok)
            exact h1
        · split at h
          · split at h
            · exact absurd h (by simp)
            · rename_i heq
              cases h
              have h1 := ih _ _ _ _ heq (by simpa using hok)
              exact h1
          · split at h
            · exact absurd h (by simp)
            · rename_i heq
              cases h
              have h1 := ih _ _ _ _ heq (by simpa using hok)
              exact h1
    · rename_i hcond
      cases h
      simp only []
      by_contra hk
      exact hcond (Or.inr (by simpa using hk))

/-! ## Byte conservation through the pipelines (claim C1) -/

/-- All bytes of the write direction: sealed output slices, the unsealed
staging prefix and the bytes buffered inside the protector. -/
def wBytes (abs : σ → Slice) (ep : secure_endpoint σ) : Slice :=
  ep.output_buffer.flatten ++ ep.writeStagingWritten ++ abs ep.protSt

/-- All bytes of the read direction. -/
def rBytes (abs : σ → Slice) (ep : secure_endpoint σ) : Slice :=
  ep.read_buffer.flatten ++ ep.readStagingWritten ++ abs ep.protSt

theorem protect_loop_bytes (P : tsi_frame_protector σ) (CAP : Nat)
    (abs : σ → Slice) (hf : IdFaithful P abs) :
    ∀ (fuel : Nat) (msg : Slice) (ep : secure_endpoint σ)
      (out : tsi_result × secure_endpoint σ × List Ev),
      protect_loop P CAP fuel msg ep = some out →
      out.1 = tsi_result.TSI_OK ∧
      wBytes abs out.2.1 = wBytes abs ep ++ msg := by
  intro fuel
  induction fuel with
  | zero => intro msg ep out h; simp [protect_loop] at h
  | succ n ih =>
    intro msg ep out h
    simp only [protect_loop] at h
    split at h
    · split at h
      · rename_i hres
        exact absurd (hf.protect_res ep.protSt msg ep.writeStagingFree) hres
      · split at h
        · split at h
          · exact absurd h (by simp)
          · rename_i heq
            cases h
            have h1 := ih _ _ _ heq
            refine ⟨h1.1, ?_⟩
            rw [h1.2]
            simp only [wBytes, flush_write_staging_buffer]
            simp [hf.protect_output, hf.protect_abs, List.append_assoc,
                  List.take_append_drop]
        · split at h
          · exact absurd h (by simp)
          · rename_i heq
            cases h
            have h1 := ih _ _ _ heq
            refine ⟨h1.1, ?_⟩
            rw [h1.2]
            simp only [wBytes]
            simp [hf.protect_output, hf.protect_abs, List.append_assoc,
                  List.take_append_drop]
    · rename_i hcond
      cases h
      have hm : msg = [] := by
        simpa using List.length_eq_zero.mp (by omega)
      simp [hm]

theorem protect_slices_bytes (P : tsi_frame_protector σ) (CAP fuel : Nat)
    (abs : σ → Slice) (hf : IdFaithful P abs) :
    ∀ (bufs : SliceBuffer) (ep : secure_endpoint σ)
      (out : tsi_result × secure_endpoint σ × List Ev),
      protect_slices P CAP fuel bufs ep = some out →
      out.1 = tsi_result.TSI_OK ∧
      wBytes abs out.2.1 = wBytes abs ep ++ bufs.flatten := by
  intro bufs
  induction bufs with
  | nil => intro ep out h; cases h; simp
  | cons s rest ih =>
    intro ep out h
    simp only [protect_slices] at h
    split at h
    · exact absurd h (by simp)
    · rename_i heq1
      have h1 := protect_loop_bytes P CAP abs hf fuel s ep _ heq1
      split at h
      · rename_i hres
        exact absurd h1.1 (by simpa using hres)
      · split at h
        · exact absurd h (by simp)
        · rename_i heq2
          have h2 := ih _ _ heq2
          cases h
          refine ⟨h2.1, ?_⟩
          rw [h2.2, h1.2]
          simp [List.append_assoc]

theorem flush_loop_bytes (P : tsi_frame_protector σ) (CAP : Nat)
    (abs : σ → Slice) (hf : IdFaithful P abs) :
    ∀ (fuel : Nat) (ep : secure_endpoint σ)
      (out : tsi_result × secure_endpoint σ × List Ev),
      flush_loop P CAP fuel ep = some out →
      out.1 = tsi_result.TSI_OK ∧
      wBytes abs out.2.1 = wBytes abs ep ∧
      abs out.2.1.protSt = [] := by
  intro fuel
  induction fuel with
  | zero => intro ep out h; simp [flush_loop] at h
  | succ n ih =>
    intro ep out h
    simp only [flush_loop] at h
    split at h
    · rename_i hres
      exact absurd (hf.flush_res ep.protSt ep.writeStagingFree) hres
    · split at h
      · split at h
        · split at h
          · exact absurd h (by simp)
          · rename_i heq
            cases h
            have h1 := ih _ _ heq
            refine ⟨h1.1, ?_, h1.2.2⟩
            rw [h1.2.1]
            simp only [wBytes, flush_write_staging_buffer]
            simp [hf.flush_output, hf.flush_abs, List.append_assoc,
                  List.take_append_drop]
        · rename_i hpend
          cases h
          have hz : (P.protect_flush ep.protSt ep.writeStagingFree).stillPending
              = 0 := by omega
          have habs0 : abs (P.protect_flush ep.protSt ep.writeStagingFree).st
              = [] := by
            have := hf.flush_pending ep.protSt ep.writeStagingFree
            rw [hz] at this
            exact List.length_eq_zero.mp this.symm
          refine ⟨rfl, ?_, by simpa [flush_write_staging_buffer] using habs0⟩
          simp only [wBytes, flush_write_staging_buffer]
          simp [hf.flush_output, hf.flush_abs, List.append_assoc,
                List.take_append_drop]
      · split at h
        · split at h
          · exact absurd h (by simp)
          · rename_i heq
            cases h
            have h1 := ih _ _ heq
            refine ⟨h1.1, ?_, h1.2.2⟩
            rw [h1.2.1]
            simp only [wBytes]
            simp [hf.flush_output, hf.flush_abs, List.append_assoc,
                  List.take_append_drop]
        · rename_i hpend
          cases h
          have hz : (P.protect_flush ep.protSt ep.writeStagingFree).stillPending
              = 0 := by omega
          have habs0 : abs (P.protect_flush ep.protSt ep.writeStagingFree).st
              = [] := by
            have := hf.flush_pending ep.protSt ep.writeStagingFree
            rw [hz] at this
            exact List.length_eq_zero.mp this.symm
          refine ⟨rfl, ?_, by simpa using habs0⟩
          simp only [wBytes]
          simp [hf.flush_output, hf.flush_abs, List.append_assoc,
                List.take_append_drop]

/-- The write pipeline conserves bytes: starting from a protector with an
empty buffer, a completed `endpoint_write` emits precisely the
concatenation of the input slices as its output buffer, forwards the
wrapped transport's status, and leaves the protector drained. -/
theorem endpoint_write_bytes (P : tsi_frame_protector σ) (CAP fuel : Nat)
    (abs : σ → Slice) (hf : IdFaithful P abs)
    (wres : grpc_endpoint_op_status) (slices : SliceBuffer)
    (ep : secure_endpoint σ)
    (out : grpc_endpoint_op_status × secure_endpoint σ × List Ev)
    (habs : abs ep.protSt = [])
    (h : endpoint_write P CAP fuel wres slices ep = some out) :
    out.1 = wres ∧
    out.2.1.output_buffer.flatten = slices.flatten ∧
    abs out.2.1.protSt = [] ∧
    out.2.1.writeStagingWritten = [] := by
  simp only [endpoint_write] at h
  split at h
  · exact absurd h (by simp)
  · rename_i res1 ep1 evs1 heq1
    have h1 := protect_slices_bytes P CAP fuel abs hf _ _ _ heq1
    split at h
    · rename_i hres
      exact absurd h1.1 (by simpa using hres)
    · split at h
      · exact absurd h (by simp)
      · rename_i res2 ep2 evs2 heq2
        have h2 := flush_loop_bytes P CAP abs hf fuel _ _ heq2
        split at h
        · rename_i hres2
          exact absurd h2.1 (by simpa using hres2)
        · cases h
          have hw1 : wBytes abs ep1 = slices.flatten := by
            have := h1.2
            simp only [wBytes] at this ⊢
            simpa [habs] using this
          have hw2 : ep2.output_buffer.flatten ++ ep2.writeStagingWritten
              = slices.flatten := by
            have h21 := h2.2.1
            rw [hw1] at h21
            simpa [wBytes, h2.2.2] using h21
          by_cases hsp : 0 < ep2.writeStagingWritten.length
          · refine ⟨rfl, ?_, ?_, ?_⟩
            · simp only [hsp, if_true]
              simpa using hw2
            · simpa [hsp] using h2.2.2
            · simp [hsp]
          · have hwnil : ep2.writeStagingWritten = [] := by
              simpa using List.length_eq_zero.mp (by omega)
            refine ⟨rfl, ?_, ?_, ?_⟩
            · simp only [hsp, if_false]
              simpa [hwnil] using hw2
            · simpa [hsp] using h2.2.2
            · simp [hsp, hwnil]

theorem unprotect_loop_bytes (P : tsi_frame_protector σ) (CAP : Nat)
    (abs : σ → Slice) (hf : IdFaithful P abs) (hCAP : 1 ≤ CAP) :
    ∀ (fuel : Nat) (msg : Slice) (keep : Bool) (ep : secure_endpoint σ)
      (out : tsi_result × Bool × secure_endpoint σ × List Ev),
      unprotect_loop P CAP fuel msg keep ep = some out →
      1 ≤ ep.readStagingFree →
      out.1 = tsi_result.TSI_OK ∧
      rBytes abs out.2.2.1 = rBytes abs ep ++ msg ∧
      (abs out.2.2.1.protSt = [] ∨
        (msg = [] ∧ keep = false ∧ out.2.2.1 = ep)) := by
  intro fuel
  induction fuel with
  | zero => intro msg keep ep out h; simp [unprotect_loop] at h
  | succ n ih =>
    intro msg keep ep out h hfree
    simp only [unprotect_loop] at h
    split at h
    · split at h
      · rename_i hres
        exact absurd (hf.unprotect_res ep.protSt msg ep.readStagingFree) hres
      · split at h
        · split at h
          · exact absurd h (by simp)
          · rename_i heq
            cases h
            have h1 := ih _ _ _ _ heq
                (by simp [flush_read_staging_buffer, hCAP])
            refine ⟨h1.1, ?_, ?_⟩
            · rw [h1.2.1]
              simp only [rBytes, flush_read_staging_buffer]
              simp [hf.unprotect_output, hf.unprotect_abs, List.append_assoc,
                    List.take_append_drop]
            · rcases h1.2.2 with hl | hr
              · exact Or.inl hl
              · exact absurd hr.2.1 (by simp)
        · rename_i hprod
          split at h
          · split at h
            · exact absurd h (by simp)
            · rename_i heq
              cases h
              have h1 := ih _ _ _ _ heq (by simp; omega)
              refine ⟨h1.1, ?_, ?_⟩
              · rw [h1.2.1]
                simp only [rBytes]
                simp [hf.unprotect_output, hf.unprotect_abs,
                      List.append_assoc, List.take_append_drop]
              · rcases h1.2.2 with hl | hr
                · exact Or.inl hl
                · exact absurd hr.2.1 (by simp)
          · rename_i hprodz
            split at h
            · exact absurd h (by simp)
            · rename_i heq
              cases h
              have h1 := ih _ _ _ _ heq (by simp; omega)
              have hav : abs ep.protSt ++
                  msg.take (P.unprotect ep.protSt msg ep.readStagingFree).consumed
                  = [] := by
                have hlen := congrArg List.length
                    (hf.unprotect_output ep.protSt msg ep.readStagingFree)
                simp only [List.length_take] at hlen
                have hpz : ¬ 0 <
                    (P.unprotect ep.protSt msg ep.readStagingFree).output.length :=
                  hprodz
                have hlen0 : (abs ep.protSt ++ msg.take
                    (P.unprotect ep.protSt msg ep.readStagingFree).consumed).length
                    = 0 := by omega
                exact List.length_eq_zero.mp hlen0
              have habs2 : abs
                  (P.unprotect ep.protSt msg ep.readStagingFree).st = [] := by
                rw [hf.unprotect_abs, hav]
                simp
              refine ⟨h1.1, ?_, ?_⟩
              · rw [h1.2.1]
                simp only [rBytes]
                simp [hf.unprotect_output, hf.unprotect_abs,
                      List.append_assoc, List.take_append_drop]
              · rcases h1.2.2 with hl | hr
                · exact Or.inl hl
                · refine Or.inl ?_
                  rw [hr.2.2]
                  simpa using habs2
    · rename_i hcond
      cases h
      push_neg at hcond
      have hm : msg = [] := by
        simpa using List.length_eq_zero.mp (by omega)
      refine ⟨rfl, by simp [hm], Or.inr ⟨hm, ?_, rfl⟩⟩
      simpa using hcond.2

theorem drain_source_slices_bytes (P : tsi_frame_protector σ) (CAP fuel : Nat)
    (abs : σ → Slice) (hf : IdFaithful P abs) (hCAP : 1 ≤ CAP) :
    ∀ (bufs : SliceBuffer) (keep : Bool) (ep : secure_endpoint σ)
      (out : tsi_result × Bool × secure_endpoint σ × List Ev),
      drain_source_slices P CAP fuel bufs keep ep = some out →
      1 ≤ ep.readStagingFree →
      out.1 = tsi_result.TSI_OK ∧
      rBytes abs out.2.2.1 = rBytes abs ep ++ bufs.flatten ∧
      (abs out.2.2.1.protSt = [] ∨ abs out.2.2.1.protSt = abs ep.protSt) := by
  intro bufs
  induction bufs with
  | nil => intro keep ep out h hfree; cases h; simp
  | cons s rest ih =>
    intro keep ep out h hfree
    simp only [drain_source_slices] at h
    split at h
    · exact absurd h (by simp)
    · rename_i res1 k1 ep1 evs1 heq1
      have h1 := unprotect_loop_bytes P CAP abs hf hCAP fuel s keep ep _ heq1
          hfree
      have hfree1 := unprotect_loop_free P CAP hCAP fuel s keep ep _ heq1 hfree
      split at h
      · rename_i hres
        exact absurd h1.1 (by simpa using hres)
      · split at h
        · exact absurd h (by simp)
        · rename_i heq2
          have h2 := ih _ _ _ heq2 hfree1
          cases h
          refine ⟨h2.1, ?_, ?_⟩
          · rw [h2.2.1, (h1.2.1 : rBytes abs ep1 = rBytes abs ep ++ s)]
            simp [List.append_assoc]
          · rcases h2.2.2 with hl | hr
            · exact Or.inl hl
            · rcases h1.2.2 with hl1 | hr1
              · exact Or.inl (hr.trans (hl1 : abs ep1.protSt = []))
              · refine Or.inr ?_
                rw [hr, (congrArg (fun e => abs e.protSt) hr1.2.2 :
                  abs ep1.protSt = abs ep.protSt)]

/-- The read pipeline conserves bytes: a completed successful `on_read`
(on a protector with an empty buffer) appends precisely the concatenation
of the source slices to the destination list, drains the protector, resets
the source scratch buffer and leaves no unsealed staging prefix. -/
theorem on_read_bytes (P : tsi_frame_protector σ) (CAP fuel : Nat)
    (abs : σ → Slice) (hf : IdFaithful P abs) (hCAP : 1 ≤ CAP)
    (ep : secure_endpoint σ)
    (out : Bool × secure_endpoint σ × List Ev)
    (hstag : 1 ≤ ep.readStagingWritten.length + ep.readStagingFree)
    (habs : abs ep.protSt = [])
    (h : on_read P CAP fuel true ep = some out) :
    out.1 = true ∧
    out.2.1.read_buffer.flatten
      = ep.read_buffer.flatten ++ ep.source_buffer.flatten ∧
    abs out.2.1.protSt = [] ∧
    out.2.1.source_buffer = [] ∧
    out.2.1.readStagingWritten = [] := by
  simp only [on_read] at h
  rw [if_neg (by simp)] at h
  split at h
  · exact absurd h (by simp)
  · rename_i res1 k1 ep1 evs1 heq1
    have h1 := drain_source_slices_bytes P CAP fuel abs hf hCAP _ _ _ _ heq1
        (by simpa using hstag)
    split at h
    · rename_i hres
      exact absurd h1.1 (by simpa using hres)
    · cases h
      have habs1 : abs ep1.protSt = [] := by
        rcases h1.2.2 with hl | hr
        · simpa using hl
        · simp only at hr
          rw [hr]
          simpa using habs
      have hjoin : ep1.read_buffer.flatten ++ ep1.readStagingWritten
          = ep.read_buffer.flatten ++ ep.source_buffer.flatten := by
        have h21 := h1.2.1
        simp only [rBytes] at h21
        simpa [habs, habs1, List.append_assoc] using h21
      by_cases hsp : 0 < ep1.readStagingWritten.length
      · refine ⟨rfl, ?_, ?_, rfl, ?_⟩
        · simp only [hsp, if_true]
          simpa using hjoin
        · simpa [hsp] using habs1
        · simp [hsp]
      · have hwnil : ep1.readStagingWritten = [] := by
          simpa using List.length_eq_zero.mp (by omega)
        refine ⟨rfl, ?_, ?_, rfl, ?_⟩
        · simp only [hsp, if_false]
          simpa [hwnil] using hjoin
        · simpa [hsp] using habs1
        · simp [hsp, hwnil]

/-- A successful flush loop never leaves the staging buffer full, with no
assumption on the staging space at entry (the `do while` body runs at
least once and seals on fullness). -/
theorem flush_loop_free_ok (P : tsi_frame_protector σ) (CAP : Nat)
    (hCAP : 1 ≤ CAP) :
    ∀ (fuel : Nat) (ep : secure_endpoint σ)
      (out : tsi_result × secure_endpoint σ × List Ev),
      flush_loop P CAP fuel ep = some out →
      out.1 = tsi_result.TSI_OK →
      1 ≤ out.2.1.writeStagingFree := by
  intro fuel
  induction fuel with
  | zero => intro ep out h; simp [flush_loop] at h
  | succ n ih =>
    intro ep out h hok
    simp only [flush_loop] at h
    split at h
    · rename_i hres
      cases h
      exact absurd hok hres
    · split at h
      · split at h
        · split at h
          · exact absurd h (by simp)
          · rename_i heq
            cases h
            have h1 := ih _ _ heq (by simpa using hok)
            exact h1
        · cases h
          simp [flush_write_staging_buffer, hCAP]
      · split at h
        · split at h
          · exact absurd h (by simp)
          · rename_i heq
            cases h
            have h1 := ih _ _ heq (by simpa using hok)
            exact h1
        · rename_i hnz hpend
          cases h
          simp at hnz ⊢
          omega

/-! ## Assembly helpers -/

theorem countP_zero_of_all (p q : Ev → Bool) (l : List Ev)
    (hall : l.all p = true) (himp : ∀ e, p e = true → q e = false) :
    l.countP q = 0 := by
  rw [List.countP_eq_zero]
  intro a ha
  have hp := (List.all_eq_true.mp hall) a ha
  simp [himp a hp]

theorem not_mem_of_all (p : Ev → Bool) (e : Ev) (l : List Ev)
    (hall : l.all p = true) (he : p e = false) : e ∉ l := by
  intro hmem
  have := (List.all_eq_true.mp hall) e hmem
  simp [this] at he

/-- The encrypt loop never calls `protect_flush`. -/
theorem protect_loop_no_flush (P : tsi_frame_protector σ) (CAP : Nat) :
    ∀ (fuel : Nat) (msg : Slice) (ep : secure_endpoint σ)
      (out : tsi_result × secure_endpoint σ × List Ev),
      protect_loop P CAP fuel msg ep = some out →
      out.2.2.all (fun e => !isFlushCall e) = true := by
  intro fuel
  induction fuel with
  | zero => intro msg ep out h; simp [protect_loop] at h
  | succ n ih =>
    intro msg ep out h
    simp only [protect_loop] at h
    split at h
    · split at h
      · cases h; simp [isFlushCall]
      · split at h
        · split at h
          · exact absurd h (by simp)
          · rename_i heq
            cases h
            have := ih _ _ _ heq
            simp_all [isFlushCall]
        · split at h
          · exact absurd h (by simp)
          · rename_i heq
            cases h
            have := ih _ _ _ heq
            simp_all [isFlushCall]
    · cases h; simp

theorem protect_slices_no_flush (P : tsi_frame_protector σ) (CAP fuel : Nat) :
    ∀ (bufs : SliceBuffer) (ep : secure_endpoint σ)
      (out : tsi_result × secure_endpoint σ × List Ev),
      protect_slices P CAP fuel bufs ep = some out →
      out.2.2.all (fun e => !isFlushCall e) = true := by
  intro bufs
  induction bufs with
  | nil => intro ep out h; cases h; simp
  | cons s rest ih =>
    intro ep out h
    simp only [protect_slices] at h
    split at h
    · exact absurd h (by simp)
    · rename_i heq1
      have h1 := protect_loop_no_flush P CAP fuel s ep _ heq1
      split at h
      · cases h; simp_all
      · split at h
        · exact absurd h (by simp)
        · rename_i heq2
          have h2 := ih _ _ heq2
          cases h
          simp_all

/-- Structural facts about `on_read`: its events come from the drain
loops, and it touches neither the leftover bytes, the refcount nor any
write-direction state. -/
theorem on_read_shape (P : tsi_frame_protector σ) (CAP fuel : Nat)
    (success : Bool) (ep : secure_endpoint σ)
    (out : Bool × secure_endpoint σ × List Ev)
    (h : on_read P CAP fuel success ep = some out) :
    out.2.2.all isReadLoopEv = true ∧
    out.2.1.leftover_bytes = ep.leftover_bytes ∧
    out.2.1.refCount = ep.refCount ∧
    out.2.1.writeStagingWritten = ep.writeStagingWritten ∧
    out.2.1.writeStagingFree = ep.writeStagingFree ∧
    out.2.1.output_buffer = ep.output_buffer := by
  simp only [on_read] at h
  split at h
  · cases h; simp
  · split at h
    · exact absurd h (by simp)
    · rename_i res1 k1 ep1 evs1 heq1
      have h1 := drain_source_slices_shape P CAP fuel _ _ _ _ heq1
      split at h
      · cases h
        simp only at h1 ⊢
        split <;> simp_all
      · cases h
        simp only at h1 ⊢
        split <;> simp_all

/-! ## Claim theorems -/

/-- `ConsumesWithinInput` holds for `idProt`. -/
theorem idProt_consumes : ConsumesWithinInput idProt :=
  fun _ m _ => Nat.le_refl m.length

/-- C1: for every sequence of plaintext segments, performing `write`
(`endpoint_write`) and then feeding the resulting ciphertext output list
through the read path (`on_read`) with matching protector instances
(a faithful pair started with empty buffers) reproduces the original
plaintext byte sequence exactly, for every way the input is chunked into
segments and for every staging-buffer capacity (with enough fuel for the
drain loops to complete). -/
theorem C1_round_trip (Pw : tsi_frame_protector σ) (Pr : tsi_frame_protector τ)
    (absW : σ → Slice) (absR : τ → Slice)
    (CAP fuelW fuelR : Nat) (slices : SliceBuffer) (sw0 : σ) (sr0 : τ)
    (succ : Bool) (dest : SliceBuffer)
    (hCAP : 1 ≤ CAP)
    (hw : IdFaithful Pw absW) (hr : IdFaithful Pr absR)
    (h0w : absW sw0 = []) (h0r : absR sr0 = [])
    (h : write_then_read Pw Pr CAP fuelW fuelR slices sw0 sr0
        = some (succ, dest)) :
    succ = true ∧ dest.flatten = slices.flatten := by
  simp only [write_then_read] at h
  split at h
  · exact absurd h (by simp)
  · rename_i stW epW evsW heqW
    have h1 := endpoint_write_bytes Pw CAP fuelW absW hw _ slices _ _
        (by simpa [grpc_secure_endpoint_create] using h0w) heqW
    split at h
    · exact absurd h (by simp)
    · rename_i sR epR evsR heqR
      have h2 := on_read_bytes Pr CAP fuelR absR hr hCAP _ _
          (by simp [grpc_secure_endpoint_create]; omega)
          (by simpa [grpc_secure_endpoint_create] using h0r) heqR
      cases h
      refine ⟨h2.1, ?_⟩
      have hd := h2.2.1
      simp only [grpc_secure_endpoint_create] at hd
      simp only [List.flatten_nil, List.nil_append] at hd
      rw [(hd : epR.read_buffer.flatten = epW.output_buffer.flatten)]
      exact (h1.2.1 : epW.output_buffer.flatten = slices.flatten)

/-- Witness for C1 at a concrete chunking and capacity. -/
theorem C1_round_trip_witness :
    write_then_read idProt idProt 2 12 12 [[1, 2, 3]] [] []
        = some (true, [[1, 2], [3]]) ∧
    (true = true ∧ ([[1, 2], [3]] : SliceBuffer).flatten
        = ([[1, 2, 3]] : SliceBuffer).flatten) :=
  ⟨by decide,
    C1_round_trip idProt idProt (fun s => s) (fun s => s) 2 12 12
      [[1, 2, 3]] [] [] true [[1, 2], [3]] (by decide)
      idProt_faithful idProt_faithful rfl rfl (by decide)⟩

/-- C2: in the read drain loop, after every staging-buffer seal the loop
performs at least one further `unprotect` call even if the segment's input
is exhausted; the staging buffer is never left full (it is sealed and
replaced whenever it fills); and the loop for a segment terminates with
`TSI_OK` only once the segment's remaining input is zero and the most
recent `unprotect` call produced zero output bytes (a crypto failure being
the only other way out of the loop). -/
theorem C2_read_drain_loop (P : tsi_frame_protector σ) (CAP fuel : Nat)
    (msg : Slice) (keep : Bool) (ep : secure_endpoint σ)
    (res : tsi_result) (keep' : Bool) (ep' : secure_endpoint σ)
    (evs : List Ev)
    (hwf : ConsumesWithinInput P)
    (h : unprotect_loop P CAP fuel msg keep ep
        = some (res, keep', ep', evs)) :
    sealsFollowedByCall evs = true ∧
    (1 ≤ CAP → 1 ≤ ep.readStagingFree → 1 ≤ ep'.readStagingFree) ∧
    (res = tsi_result.TSI_OK → 0 < msg.length ∨ keep = true →
      unprotectConsumed evs = msg.length ∧
      lastUnprotectProduced evs = some 0) := by
  refine ⟨?_, ?_, ?_⟩
  · exact unprotect_loop_seals P CAP fuel msg keep ep _ h
  · intro h1 h2
    exact unprotect_loop_free P CAP h1 fuel msg keep ep _ h h2
  · intro hok hentry
    have he := unprotect_loop_exit P CAP hwf fuel msg keep ep _ h hok hentry
    exact ⟨he.1, he.2 none⟩

/-- Witness for C2: a run whose staging buffer seals mid-segment. -/
theorem C2_read_drain_loop_witness :
    unprotect_loop idProt 2 12 [1, 2, 3] false
        (grpc_secure_endpoint_create [] [] 2)
      = some (tsi_result.TSI_OK, false,
          { grpc_secure_endpoint_create ([] : Slice) [] 2 with
            read_buffer := [[1, 2]]
            readStagingWritten := [3]
            readStagingFree := 1 },
          [Ev.lock, Ev.unprotectCall tsi_result.TSI_OK 3 2, Ev.unlock,
           Ev.sealRead,
           Ev.lock, Ev.unprotectCall tsi_result.TSI_OK 0 1, Ev.unlock,
           Ev.lock, Ev.unprotectCall tsi_result.TSI_OK 0 0, Ev.unlock]) ∧
    (sealsFollowedByCall
        [Ev.lock, Ev.unprotectCall tsi_result.TSI_OK 3 2, Ev.unlock,
         Ev.sealRead,
         Ev.lock, Ev.unprotectCall tsi_result.TSI_OK 0 1, Ev.unlock,
         Ev.lock, Ev.unprotectCall tsi_result.TSI_OK 0 0, Ev.unlock] = true ∧
      (1 ≤ 2 →
        1 ≤ (grpc_secure_endpoint_create ([] : Slice) [] 2).readStagingFree →
        1 ≤ ({ grpc_secure_endpoint_create ([] : Slice) [] 2 with
               read_buffer := [[1, 2]]
               readStagingWritten := [3]
               readStagingFree := 1 }).readStagingFree) ∧
      (tsi_result.TSI_OK = tsi_result.TSI_OK →
        0 < ([1, 2, 3] : Slice).length ∨ false = true →
        unprotectConsumed
            [Ev.lock, Ev.unprotectCall tsi_result.TSI_OK 3 2, Ev.unlock,
             Ev.sealRead,
             Ev.lock, Ev.unprotectCall tsi_result.TSI_OK 0 1, Ev.unlock,
             Ev.lock, Ev.unprotectCall tsi_result.TSI_OK 0 0, Ev.unlock]
          = ([1, 2, 3] : Slice).length ∧
        lastUnprotectProduced
            [Ev.lock, Ev.unprotectCall tsi_result.TSI_OK 3 2, Ev.unlock,
             Ev.sealRead,
             Ev.lock, Ev.unprotectCall tsi_result.TSI_OK 0 1, Ev.unlock,
             Ev.lock, Ev.unprotectCall tsi_result.TSI_OK 0 0, Ev.unlock]
          = some 0)) :=
  ⟨by decide,
    C2_read_drain_loop idProt 2 12 [1, 2, 3] false
      (grpc_secure_endpoint_create [] [] 2) tsi_result.TSI_OK false
      _ _ idProt_consumes (by decide)⟩

/-- Is the event a failed `protect` call? -/
def isFailedProtect : Ev → Bool
  | Ev.protectCall r _ _ => r ≠ tsi_result.TSI_OK
  | _ => false

theorem any_failed_protect (l : List Ev)
    (h1 : l.any isFailedCall = true)
    (h2 : l.all (fun e => !isFlushCall e) = true)
    (h3 : l.all isWriteLoopEv = true) :
    l.any isFailedProtect = true := by
  rw [List.any_eq_true] at h1 ⊢
  obtain ⟨e, he, hf⟩ := h1
  refine ⟨e, he, ?_⟩
  have h2e := (List.all_eq_true.mp h2) e he
  have h3e := (List.all_eq_true.mp h3) e he
  cases e <;> simp_all [isFailedCall, isFlushCall, isWriteLoopEv,
    isFailedProtect]

/-- C3: after all plaintext input segments are consumed in
`endpoint_write`, the flush phase calls the protector's flush at least once
(whenever the protect phase did not fail) and repeats it, sealing and
reallocating the staging buffer whenever it fills (the staging buffer is
never left full on a non-error return), until flush reports zero bytes
still pending; the write never proceeds to the wrapped transport (no
`wrappedWrite` event) unless the most recent flush call reported
`still_pending_size = 0`. -/
theorem C3_flush_exhaustion (P : tsi_frame_protector σ) (CAP fuel : Nat)
    (wres : grpc_endpoint_op_status) (slices : SliceBuffer)
    (ep : secure_endpoint σ) (status : grpc_endpoint_op_status)
    (ep' : secure_endpoint σ) (evs : List Ev)
    (h : endpoint_write P CAP fuel wres slices ep = some (status, ep', evs)) :
    (evs.any isFailedProtect = false → 0 < evs.countP isFlushCall) ∧
    (Ev.wrappedWrite ∈ evs →
      0 < evs.countP isFlushCall ∧ lastFlushPending evs = some 0) ∧
    (1 ≤ CAP → status ≠ grpc_endpoint_op_status.ERROR →
      1 ≤ ep'.writeStagingFree) := by
  simp only [endpoint_write] at h
  split at h
  · exact absurd h (by simp)
  · rename_i res1 ep1 evs1 heq1
    have hshape1 := protect_slices_shape P CAP fuel _ _ _ heq1
    have hall1 : evs1.all isWriteLoopEv = true := hshape1.2.2.2.2.2.2
    split at h
    · rename_i hres1
      cases h
      have hfail : evs.any isFailedCall = true := by
        have hiff := protect_slices_fail P CAP fuel _ _ _ heq1
        have hne : ¬ evs.any isFailedCall = false := fun hc =>
          hres1 (hiff.mpr hc)
        simpa using hne
      refine ⟨?_, ?_, ?_⟩
      · intro hnofail
        have hap := any_failed_protect evs hfail
            (protect_slices_no_flush P CAP fuel _ _ _ heq1) hall1
        simp [hap] at hnofail
      · intro hww
        exact absurd hww
          (not_mem_of_all isWriteLoopEv Ev.wrappedWrite evs hall1 rfl)
      · intro _ hstatus
        exact absurd rfl hstatus
    · rename_i hres1
      split at h
      · exact absurd h (by simp)
      · rename_i res2 ep2 evs2 heq2
        have hfp := flush_loop_pending P CAP fuel _ _ heq2
        have hc2 : 0 < evs2.countP isFlushCall := hfp.1
        have hshape2 := flush_loop_shape P CAP fuel _ _ heq2
        have hall2 : evs2.all isWriteLoopEv = true := hshape2.2.2.2.2.2.2
        split at h
        · rename_i hres2
          cases h
          refine ⟨?_, ?_, ?_⟩
          · intro _
            simp only [List.countP_append]
            omega
          · intro hww
            rw [List.mem_append] at hww
            rcases hww with hw1 | hw2
            · exact absurd hw1
                (not_mem_of_all isWriteLoopEv Ev.wrappedWrite evs1 hall1 rfl)
            · exact absurd hw2
                (not_mem_of_all isWriteLoopEv Ev.wrappedWrite evs2 hall2 rfl)
          · intro _ hstatus
            exact absurd rfl hstatus
        · rename_i hres2
          cases h
          refine ⟨?_, ?_, ?_⟩
          · intro _
            simp only [List.countP_append]
            omega
          · intro _
            constructor
            · simp only [List.countP_append]
              omega
            · have hlp : ∀ a, lastFlushPendingFrom a evs2 = some 0 :=
                hfp.2 (by simpa using hres2)
              show lastFlushPendingFrom none
                  (evs1 ++ evs2 ++ [Ev.wrappedWrite]) = some 0
              rw [lastFlushPendingFrom_append, lastFlushPendingFrom_append,
                  hlp]
              rfl
          · intro hC hstatus
            have hfree2 := flush_loop_free_ok P CAP hC fuel _ _ heq2
                (by simpa using hres2)
            split
            · simpa using hfree2
            · simpa using hfree2

/-- C4: whenever some protect/unprotect/flush call fails (returns
non-`TSI_OK`), the overall operation fails, the output list (for write) or
destination list (for read) is left containing no bytes from the
operation, and for write no call is made to the wrapped transport's
write. -/
theorem C4_failure_isolation (P : tsi_frame_protector σ) (CAP fuel : Nat) :
    (∀ (wres : grpc_endpoint_op_status) (slices : SliceBuffer)
        (ep : secure_endpoint σ) (status : grpc_endpoint_op_status)
        (ep' : secure_endpoint σ) (evs : List Ev),
      endpoint_write P CAP fuel wres slices ep = some (status, ep', evs) →
      evs.any isFailedCall = true →
      status = grpc_endpoint_op_status.ERROR ∧ ep'.output_buffer = [] ∧
      Ev.wrappedWrite ∉ evs) ∧
    (∀ (ep : secure_endpoint σ) (succ : Bool) (ep' : secure_endpoint σ)
        (evs : List Ev),
      on_read P CAP fuel true ep = some (succ, ep', evs) →
      evs.any isFailedCall = true →
      succ = false ∧ ep'.read_buffer = []) := by
  constructor
  · intro wres slices ep status ep' evs h hany
    simp only [endpoint_write] at h
    split at h
    · exact absurd h (by simp)
    · rename_i res1 ep1 evs1 heq1
      have hall1 : evs1.all isWriteLoopEv = true :=
        (protect_slices_shape P CAP fuel _ _ _ heq1).2.2.2.2.2.2
      split at h
      · cases h
        refine ⟨rfl, by simp, ?_⟩
        exact not_mem_of_all isWriteLoopEv Ev.wrappedWrite evs hall1 rfl
      · rename_i hres1
        split at h
        · exact absurd h (by simp)
        · rename_i res2 ep2 evs2 heq2
          have hall2 : evs2.all isWriteLoopEv = true :=
            (flush_loop_shape P CAP fuel _ _ heq2).2.2.2.2.2.2
          split at h
          · cases h
            refine ⟨rfl, by simp, ?_⟩
            intro hmem
            rw [List.mem_append] at hmem
            rcases hmem with hm | hm
            · exact not_mem_of_all isWriteLoopEv Ev.wrappedWrite evs1 hall1
                rfl hm
            · exact not_mem_of_all isWriteLoopEv Ev.wrappedWrite evs2 hall2
                rfl hm
          · rename_i hres2
            cases h
            exfalso
            have hf1 : evs1.any isFailedCall = false :=
              (protect_slices_fail P CAP fuel _ _ _ heq1).mp
                (by simpa using hres1)
            have hf2 : evs2.any isFailedCall = false :=
              (flush_loop_fail P CAP fuel _ _ heq2).mp (by simpa using hres2)
            simp [List.any_append, hf1, hf2, isFailedCall] at hany
  · intro ep succ ep' evs h hany
    simp only [on_read] at h
    rw [if_neg (by simp)] at h
    split at h
    · exact absurd h (by simp)
    · rename_i res1 k1 ep1 evs1 heq1
      split at h
      · cases h
        exact ⟨rfl, by simp⟩
      · rename_i hres1
        cases h
        exfalso
        have hf1 : evs.any isFailedCall = false :=
          (drain_source_slices_fail P CAP fuel _ _ _ _ heq1).mp
            (by simpa using hres1)
        simp [hf1] at hany

/-- C5: while a read issued against the wrapped transport is pending, the
endpoint's reference count never reaches zero — even if `destroy()` is
called — until that read's completion callback has run and released its
reference; the endpoint is freed exactly when the count transitions to
zero (and the completion callback is invoked before the release). -/
theorem C5_pending_read_lifetime (P : tsi_frame_protector σ)
    (CAP fuel fuel2 : Nat) (ep : secure_endpoint σ) (arrived : SliceBuffer)
    (succ2 : Bool)
    (hlo : ep.leftover_bytes = []) (hrc : 1 ≤ ep.refCount) :
    endpoint_read P CAP fuel wrapped_read_result.PENDING ep
      = some (grpc_endpoint_op_status.PENDING,
          { ep with read_buffer := [], refCount := ep.refCount + 1 },
          [Ev.epRef, Ev.wrappedRead]) ∧
    (endpoint_destroy ({ ep with read_buffer := [], refCount := ep.refCount + 1 } : secure_endpoint σ)).2.1 = false ∧
    1 ≤ (endpoint_destroy ({ ep with read_buffer := [], refCount := ep.refCount + 1 } : secure_endpoint σ)).1.refCount ∧
    (∀ out : secure_endpoint σ × Bool × List Ev,
      on_read_cb P CAP fuel2 arrived succ2
          (endpoint_destroy ({ ep with read_buffer := [], refCount := ep.refCount + 1 } : secure_endpoint σ)).1
        = some out →
      out.1.refCount = ep.refCount - 1 ∧
      (out.2.1 = true ↔ out.1.refCount = 0) ∧
      ∃ pre s, out.2.2 = pre ++ [Ev.readCb s, Ev.epUnref]) := by
  refine ⟨?_, ?_, ?_, ?_⟩
  · simp [endpoint_read, secure_endpoint_ref, hlo]
  · simp only [endpoint_destroy, secure_endpoint_unref]
    simp [Nat.add_sub_cancel]
    omega
  · simp only [endpoint_destroy, secure_endpoint_unref]
    simp [Nat.add_sub_cancel]
    omega
  · intro out hout
    simp only [on_read_cb] at hout
    split at hout
    · exact absurd hout (by simp)
    · rename_i b ep2 evs2 heq
      have hsh := on_read_shape P CAP fuel2 succ2 _ _ heq
      have hrc2 : ep2.refCount = ep.refCount := by
        have hx := hsh.2.2.1
        simpa [endpoint_destroy, secure_endpoint_unref] using hx
      cases hout
      refine ⟨?_, ?_, ?_⟩
      · simp [call_read_cb, secure_endpoint_unref, hrc2]
      · simp [call_read_cb, secure_endpoint_unref]
      · exact ⟨evs2, b, by simp [call_read_cb, secure_endpoint_unref]⟩

/-- C6: leftover handshake bytes are consumed at most once per endpoint
lifetime: a read that finds them swaps them wholesale into the source
scratch list (leaving the leftover list empty, given the source scratch
list was empty as the swap-time assertion demands), and every read issued
with an empty leftover list leaves it empty — even if an earlier read
failed before fully draining the replayed bytes. -/
theorem C6_leftover_consumed_once (P : tsi_frame_protector σ)
    (CAP fuel : Nat) (wrapped : wrapped_read_result) (ep : secure_endpoint σ)
    (st : grpc_endpoint_op_status) (ep' : secure_endpoint σ) (evs : List Ev)
    (h : endpoint_read P CAP fuel wrapped ep = some (st, ep', evs)) :
    (ep.source_buffer = [] → ep'.leftover_bytes = []) ∧
    (ep.leftover_bytes = [] → ep'.leftover_bytes = []) := by
  simp only [endpoint_read] at h
  split at h
  · rename_i hne
    split at h
    · exact absurd h (by simp)
    · rename_i hz
      have hzero : ep.source_buffer = [] := by
        have : ep.source_buffer.length = 0 := by simpa using hz
        simpa using List.length_eq_zero.mp this
      split at h
      · exact absurd h (by simp)
      · rename_i succ1 ep1 evs1 heq1
        have hsh := on_read_shape P CAP fuel true _ _ heq1
        have hl : ep1.leftover_bytes = ep.source_buffer := by
          have hx := hsh.2.1
          simpa using hx
        cases h
        exact ⟨fun _ => by rw [hl, hzero], fun _ => by rw [hl, hzero]⟩
  · rename_i hemp
    have hl0 : ep.leftover_bytes = [] := by
      have : ep.leftover_bytes.length = 0 := by
        simpa using hemp
      simpa using List.length_eq_zero.mp this
    split at h
    · rename_i data
      split at h
      · exact absurd h (by simp)
      · rename_i succ1 ep1 evs1 heq1
        have hsh := on_read_shape P CAP fuel true _ _ heq1
        have hl : ep1.leftover_bytes = ep.leftover_bytes := by
          have hx := hsh.2.1
          simpa using hx
        cases h
        constructor
        · intro _
          simp [secure_endpoint_unref, hl, hl0]
        · intro _
          simp [secure_endpoint_unref, hl, hl0]
    · cases h
      exact ⟨fun _ => by simpa using hl0, fun _ => by simpa using hl0⟩
    · rename_i data
      split at h
      · exact absurd h (by simp)
      · rename_i succ1 ep1 evs1 heq1
        have hsh := on_read_shape P CAP fuel false _ _ heq1
        have hl : ep1.leftover_bytes = ep.leftover_bytes := by
          have hx := hsh.2.1
          simpa using hx
        cases h
        constructor
        · intro _
          simp [secure_endpoint_unref, hl, hl0]
        · intro _
          simp [secure_endpoint_unref, hl, hl0]

/-- C7 (amended): at the completion of a read whose drain ran
(`success = 1`, covering both successful completions and crypto-failure
completions), any unsealed partial staging prefix is split off (leaving
the staging prefix empty, its bytes going to the destination list unless a
crypto failure then discards them) and the source scratch list is released;
but at a transport-error completion (`success = 0`) the early return
resets the destination list and leaves the source scratch list
untouched. -/
theorem C7_completion_cleanup (P : tsi_frame_protector σ) (CAP fuel : Nat) :
    (∀ (ep : secure_endpoint σ) (succ : Bool) (ep' : secure_endpoint σ)
        (evs : List Ev),
      on_read P CAP fuel true ep = some (succ, ep', evs) →
      ep'.source_buffer = [] ∧ ep'.readStagingWritten = [] ∧
      (succ = false → ep'.read_buffer = [])) ∧
    (∀ (ep : secure_endpoint σ) (succ : Bool) (ep' : secure_endpoint σ)
        (evs : List Ev),
      on_read P CAP fuel false ep = some (succ, ep', evs) →
      succ = false ∧ ep'.read_buffer = [] ∧
      ep'.source_buffer = ep.source_buffer) := by
  constructor
  · intro ep succ ep' evs h
    simp only [on_read] at h
    rw [if_neg (by simp)] at h
    split at h
    · exact absurd h (by simp)
    · rename_i res1 k1 ep1 evs1 heq1
      split at h
      · cases h
        refine ⟨rfl, ?_, fun _ => rfl⟩
        split
        · rfl
        · rename_i hns
          simpa using List.length_eq_zero.mp (by omega)
      · cases h
        refine ⟨rfl, ?_, fun hc => by simp at hc⟩
        split
        · rfl
        · rename_i hns
          simpa using List.length_eq_zero.mp (by omega)
  · intro ep succ ep' evs h
    simp only [on_read, if_pos rfl] at h
    cases h
    exact ⟨rfl, rfl, rfl⟩

/-- C7 counterexample to the claim as stated: a transport-error completion
(the resumption callback invoked with `success = 0`) leaves the source
scratch list unreleased — here it still holds the slice the transport
deposited, instead of being empty as the claim requires. -/
theorem C7_counterexample :
    ((on_read_cb idProt 4 10 [[1]] false
        (grpc_secure_endpoint_create ([] : Slice) [] 4)).map
      (fun out => out.1.source_buffer)) = some [[1]] ∧
    some ([[1]] : SliceBuffer) ≠ some ([] : SliceBuffer) :=
  ⟨by decide, by decide⟩

/-- C8: every `protect`/`unprotect`/`protect_flush` call of the write and
read pipelines acquires the protector mutex immediately before the call
and releases it immediately after — each critical section contains exactly
one protector call and the mutex is never held across the rest of a drain
loop (so concurrent read- and write-direction calls are serialized against
the single protector instance one call at a time). -/
theorem C8_mutex_discipline (P : tsi_frame_protector σ) (CAP fuel : Nat) :
    (∀ (wres : grpc_endpoint_op_status) (slices : SliceBuffer)
        (ep : secure_endpoint σ)
        (out : grpc_endpoint_op_status × secure_endpoint σ × List Ev),
      endpoint_write P CAP fuel wres slices ep = some out →
      lockCheck out.2.2 = true) ∧
    (∀ (success : Bool) (ep : secure_endpoint σ)
        (out : Bool × secure_endpoint σ × List Ev),
      on_read P CAP fuel success ep = some out →
      lockCheck out.2.2 = true) := by
  constructor
  · intro wres slices ep out h
    simp only [endpoint_write] at h
    split at h
    · exact absurd h (by simp)
    · rename_i res1 ep1 evs1 heq1
      have h1 := protect_slices_lock P CAP fuel _ _ _ heq1
      split at h
      · cases h
        have := h1 []
        simpa using this
      · split at h
        · exact absurd h (by simp)
        · rename_i res2 ep2 evs2 heq2
          have h2 := flush_loop_lock P CAP fuel _ _ heq2
          split at h
          · cases h
            have ha := h1 evs2
            have hb := h2 []
            simp only []
            rw [ha]
            simpa using hb
          · cases h
            have ha := h1 (evs2 ++ [Ev.wrappedWrite])
            have hb := h2 [Ev.wrappedWrite]
            simp only [List.append_assoc]
            rw [ha, hb]
            rfl
  · intro success ep out h
    simp only [on_read] at h
    split at h
    · cases h; rfl
    · split at h
      · exact absurd h (by simp)
      · rename_i res1 k1 ep1 evs1 heq1
        have h1 := drain_source_slices_lock P CAP fuel _ _ _ _ heq1
        split at h
        · cases h
          have := h1 []
          simpa using this
        · cases h
          have := h1 []
          simpa using this

/-- C9: the caller-supplied completion closure is never invoked during a
synchronous `endpoint_read` (leftover path, immediate completion and
immediate error included): it is invoked exactly once, later, by the
resumption callback `on_read_cb` registered for the pending case. -/
theorem C9_completion_exactly_once (P : tsi_frame_protector σ)
    (CAP fuel : Nat) :
    (∀ (wrapped : wrapped_read_result) (ep : secure_endpoint σ)
        (out : grpc_endpoint_op_status × secure_endpoint σ × List Ev),
      endpoint_read P CAP fuel wrapped ep = some out →
      out.2.2.countP isReadCbCall = 0) ∧
    (∀ (arrived : SliceBuffer) (success : Bool) (ep : secure_endpoint σ)
        (out : secure_endpoint σ × Bool × List Ev),
      on_read_cb P CAP fuel arrived success ep = some out →
      out.2.2.countP isReadCbCall = 1) := by
  constructor
  · intro wrapped ep out h
    simp only [endpoint_read] at h
    split at h
    · split at h
      · exact absurd h (by simp)
      · split at h
        · exact absurd h (by simp)
        · rename_i succ1 ep1 evs1 heq1
          have hsh := on_read_shape P CAP fuel true _ _ heq1
          cases h
          exact countP_zero_of_all isReadLoopEv isReadCbCall _ hsh.1
            (by intro e he; cases e <;> simp_all [isReadLoopEv, isReadCbCall])
    · split at h
      · rename_i data
        split at h
        · exact absurd h (by simp)
        · rename_i succ1 ep1 evs1 heq1
          have hsh := on_read_shape P CAP fuel true _ _ heq1
          cases h
          have hz := countP_zero_of_all isReadLoopEv isReadCbCall _ hsh.1
            (by intro e he; cases e <;> simp_all [isReadLoopEv, isReadCbCall])
          simp only [secure_endpoint_ref, secure_endpoint_unref]
          simp [List.countP_cons, List.countP_append, isReadCbCall, hz]
      · cases h
        simp [secure_endpoint_ref, List.countP_cons, isReadCbCall]
      · rename_i data
        split at h
        · exact absurd h (by simp)
        · rename_i succ1 ep1 evs1 heq1
          have hsh := on_read_shape P CAP fuel false _ _ heq1
          cases h
          have hz := countP_zero_of_all isReadLoopEv isReadCbCall _ hsh.1
            (by intro e he; cases e <;> simp_all [isReadLoopEv, isReadCbCall])
          simp only [secure_endpoint_ref, secure_endpoint_unref]
          simp [List.countP_cons, List.countP_append, isReadCbCall, hz]
  · intro arrived success ep out h
    simp only [on_read_cb] at h
    split at h
    · exact absurd h (by simp)
    · rename_i b ep2 evs2 heq
      have hsh := on_read_shape P CAP fuel success _ _ heq
      cases h
      have hz := countP_zero_of_all isReadLoopEv isReadCbCall _ hsh.1
        (by intro e he; cases e <;> simp_all [isReadLoopEv, isReadCbCall])
      simp only [call_read_cb, secure_endpoint_unref]
      simp [List.countP_cons, List.countP_append, isReadCbCall, hz]

/-- C10: `endpoint_write` never changes the endpoint's reference count —
no ref or unref event occurs in any write, even one forwarding a `PENDING`
status, because the caller's closure is handed directly to the wrapped
transport's write. -/
theorem C10_write_keeps_refcount (P : tsi_frame_protector σ)
    (CAP fuel : Nat) :
    ∀ (wres : grpc_endpoint_op_status) (slices : SliceBuffer)
      (ep : secure_endpoint σ)
      (out : grpc_endpoint_op_status × secure_endpoint σ × List Ev),
      endpoint_write P CAP fuel wres slices ep = some out →
      out.2.1.refCount = ep.refCount ∧
      out.2.2.countP isRefChange = 0 := by
  intro wres slices ep out h
  simp only [endpoint_write] at h
  split at h
  · exact absurd h (by simp)
  · rename_i res1 ep1 evs1 heq1
    have hsh1 := protect_slices_shape P CAP fuel _ _ _ heq1
    have hz1 := countP_zero_of_all isWriteLoopEv isRefChange _
        hsh1.2.2.2.2.2.2
        (by intro e he; cases e <;> simp_all [isWriteLoopEv, isRefChange])
    have hrc1 : ep1.refCount = ep.refCount := by
      have hx := hsh1.2.2.1
      simpa using hx
    split at h
    · cases h
      exact ⟨by simpa using hrc1, hz1⟩
    · split at h
      · exact absurd h (by simp)
      · rename_i res2 ep2 evs2 heq2
        have hsh2 := flush_loop_shape P CAP fuel _ _ heq2
        have hz2 := countP_zero_of_all isWriteLoopEv isRefChange _
            hsh2.2.2.2.2.2.2
            (by intro e he; cases e <;> simp_all [isWriteLoopEv, isRefChange])
        have hrc2 : ep2.refCount = ep1.refCount := by
          have hx := hsh2.2.2.1
          simpa using hx
        split at h
        · cases h
          refine ⟨?_, ?_⟩
          · split <;> simp [hrc2, hrc1]
          · simp [List.countP_append, hz1, hz2]
        · cases h
          constructor
          · split
            · simp [hrc2, hrc1]
            · simp [hrc2, hrc1]
          · simp [List.countP_append, List.countP_cons, hz1, hz2,
                isRefChange]

/-! ## Concrete inputs for the witnesses -/

/-- A fresh endpoint over the buffering identity protector, capacity 2. -/
def epW0 : secure_endpoint Slice := grpc_secure_endpoint_create [] [] 2

/-- A fresh endpoint over the always-failing protector, capacity 4. -/
def epF0 : secure_endpoint Unit := grpc_secure_endpoint_create () [] 4

/-- The state after the witness write run. -/
def epW1 : secure_endpoint Slice :=
  { epW0 with
    writeStagingFree := 1
    output_buffer := [[1, 2], [3]] }

/-- The state after the witness read run over two source slices. -/
def epR1 : secure_endpoint Slice :=
  { epW0 with
    read_buffer := [[1, 2], [3]]
    readStagingFree := 1 }

/-- Events of the witness write run. -/
def evsW3 : List Ev :=
  [Ev.lock, Ev.protectCall tsi_result.TSI_OK 3 2, Ev.unlock, Ev.sealWrite,
   Ev.lock, Ev.flushCall tsi_result.TSI_OK 1 0, Ev.unlock, Ev.wrappedWrite]

/-- Events of the witness read run over two source slices. -/
def evsR7 : List Ev :=
  [Ev.lock, Ev.unprotectCall tsi_result.TSI_OK 2 2, Ev.unlock, Ev.sealRead,
   Ev.lock, Ev.unprotectCall tsi_result.TSI_OK 0 0, Ev.unlock,
   Ev.lock, Ev.unprotectCall tsi_result.TSI_OK 1 1, Ev.unlock,
   Ev.lock, Ev.unprotectCall tsi_result.TSI_OK 0 0, Ev.unlock]

/-- Events of the failing write run. -/
def evsF1 : List Ev :=
  [Ev.lock, Ev.protectCall tsi_result.TSI_INTERNAL_ERROR 0 0, Ev.unlock]

/-- Events of the failing read run. -/
def evsF2 : List Ev :=
  [Ev.lock, Ev.unprotectCall tsi_result.TSI_INTERNAL_ERROR 0 0, Ev.unlock]

/-- Events of the witness immediate-completion read. -/
def evsR9 : List Ev :=
  [Ev.epRef, Ev.wrappedRead,
   Ev.lock, Ev.unprotectCall tsi_result.TSI_OK 2 2, Ev.unlock, Ev.sealRead,
   Ev.lock, Ev.unprotectCall tsi_result.TSI_OK 0 0, Ev.unlock, Ev.epUnref]

/-- Events of the witness resumption-callback completion. -/
def evsR9b : List Ev :=
  [Ev.lock, Ev.unprotectCall tsi_result.TSI_OK 2 2, Ev.unlock, Ev.sealRead,
   Ev.lock, Ev.unprotectCall tsi_result.TSI_OK 0 0, Ev.unlock,
   Ev.readCb true, Ev.epUnref]

/-- Witness for C3 on the concrete write run. -/
theorem C3_flush_exhaustion_witness :
    endpoint_write idProt 2 12 grpc_endpoint_op_status.DONE [[1, 2, 3]] epW0
      = some (grpc_endpoint_op_status.DONE, epW1, evsW3) ∧
    ((evsW3.any isFailedProtect = false → 0 < evsW3.countP isFlushCall) ∧
      (Ev.wrappedWrite ∈ evsW3 →
        0 < evsW3.countP isFlushCall ∧ lastFlushPending evsW3 = some 0) ∧
      (1 ≤ 2 →
        grpc_endpoint_op_status.DONE ≠ grpc_endpoint_op_status.ERROR →
        1 ≤ epW1.writeStagingFree)) :=
  ⟨by decide,
    C3_flush_exhaustion idProt 2 12 grpc_endpoint_op_status.DONE [[1, 2, 3]]
      epW0 grpc_endpoint_op_status.DONE epW1 evsW3 (by decide)⟩

/-- Witness for C4 on runs whose first protector call fails. -/
theorem C4_failure_isolation_witness :
    (endpoint_write failProt 4 10 grpc_endpoint_op_status.DONE [[1]] epF0
        = some (grpc_endpoint_op_status.ERROR, epF0, evsF1) ∧
      evsF1.any isFailedCall = true ∧
      (grpc_endpoint_op_status.ERROR = grpc_endpoint_op_status.ERROR ∧
        epF0.output_buffer = [] ∧ Ev.wrappedWrite ∉ evsF1)) ∧
    (on_read failProt 4 10 true { epF0 with source_buffer := [[9]] }
        = some (false, epF0, evsF2) ∧
      evsF2.any isFailedCall = true ∧
      (false = false ∧ epF0.read_buffer = [])) :=
  ⟨⟨by decide, by decide,
      (C4_failure_isolation failProt 4 10).1 grpc_endpoint_op_status.DONE
        [[1]] epF0 grpc_endpoint_op_status.ERROR epF0 evsF1 (by decide)
        (by decide)⟩,
    ⟨by decide, by decide,
      (C4_failure_isolation failProt 4 10).2
        { epF0 with source_buffer := [[9]] } false epF0 evsF2 (by decide)
        (by decide)⟩⟩

/-- The completion result of the witness pending-read scenario for C5. -/
def out5 : secure_endpoint Slice × Bool × List Ev :=
  ({ epW0 with
     read_buffer := [[7, 8]]
     refCount := 0 }, true, evsR9b)

/-- Witness for C5 on a concrete pending read followed by `destroy` and the
transport's completion. -/
theorem C5_pending_read_lifetime_witness :
    epW0.leftover_bytes = [] ∧ 1 ≤ epW0.refCount ∧
    endpoint_read idProt 2 12 wrapped_read_result.PENDING epW0
      = some (grpc_endpoint_op_status.PENDING,
          { epW0 with read_buffer := [], refCount := epW0.refCount + 1 },
          [Ev.epRef, Ev.wrappedRead]) ∧
    (endpoint_destroy ({ epW0 with read_buffer := [], refCount := epW0.refCount + 1 } : secure_endpoint Slice)).2.1 = false ∧
    (out5.1.refCount = epW0.refCount - 1 ∧
      (out5.2.1 = true ↔ out5.1.refCount = 0)) :=
  ⟨by decide, by decide,
    (C5_pending_read_lifetime idProt 2 12 12 epW0 [[7, 8]] true
      (by decide) (by decide)).1,
    (C5_pending_read_lifetime idProt 2 12 12 epW0 [[7, 8]] true
      (by decide) (by decide)).2.1,
    ⟨((C5_pending_read_lifetime idProt 2 12 12 epW0 [[7, 8]] true
        (by decide) (by decide)).2.2.2 out5 (by decide)).1,
      ((C5_pending_read_lifetime idProt 2 12 12 epW0 [[7, 8]] true
        (by decide) (by decide)).2.2.2 out5 (by decide)).2.1⟩⟩

/-- The state after the witness leftover-replay read. -/
def epL1 : secure_endpoint Slice :=
  { epW0 with
    read_buffer := [[5]]
    readStagingFree := 1 }

/-- Witness for C6 on a first read that replays leftover bytes. -/
theorem C6_leftover_consumed_once_witness :
    endpoint_read idProt 2 12 wrapped_read_result.PENDING
        (grpc_secure_endpoint_create ([] : Slice) [[5]] 2)
      = some (grpc_endpoint_op_status.DONE, epL1,
          [Ev.lock, Ev.unprotectCall tsi_result.TSI_OK 1 1, Ev.unlock,
           Ev.lock, Ev.unprotectCall tsi_result.TSI_OK 0 0, Ev.unlock]) ∧
    (((grpc_secure_endpoint_create ([] : Slice) [[5]] 2).source_buffer = [] →
        epL1.leftover_bytes = []) ∧
      ((grpc_secure_endpoint_create ([] : Slice) [[5]] 2).leftover_bytes = []
        → epL1.leftover_bytes = [])) :=
  ⟨by decide,
    C6_leftover_consumed_once idProt 2 12 wrapped_read_result.PENDING
      (grpc_secure_endpoint_create ([] : Slice) [[5]] 2)
      grpc_endpoint_op_status.DONE epL1
      [Ev.lock, Ev.unprotectCall tsi_result.TSI_OK 1 1, Ev.unlock,
       Ev.lock, Ev.unprotectCall tsi_result.TSI_OK 0 0, Ev.unlock]
      (by decide)⟩

/-- Witness for the amended C7 on a crypto-success completion and a
transport-error completion. -/
theorem C7_completion_cleanup_witness :
    (on_read idProt 2 12 true { epW0 with source_buffer := [[1, 2], [3]] }
        = some (true, epR1, evsR7) ∧
      (epR1.source_buffer = [] ∧ epR1.readStagingWritten = [] ∧
        (true = false → epR1.read_buffer = []))) ∧
    (on_read idProt 2 12 false { epW0 with source_buffer := [[9]] }
        = some (false, { epW0 with source_buffer := [[9]] }, []) ∧
      (false = false ∧
        ({ epW0 with source_buffer := [[9]] }).read_buffer = [] ∧
        ({ epW0 with source_buffer := [[9]] }).source_buffer
          = ({ epW0 with source_buffer := [[9]] }).source_buffer)) :=
  ⟨⟨by decide,
      (C7_completion_cleanup idProt 2 12).1
        { epW0 with source_buffer := [[1, 2], [3]] } true epR1 evsR7
        (by decide)⟩,
    ⟨by decide,
      (C7_completion_cleanup idProt 2 12).2
        { epW0 with source_buffer := [[9]] } false
        { epW0 with source_buffer := [[9]] } [] (by decide)⟩⟩

/-- Witness for C8 on the concrete write and read runs. -/
theorem C8_mutex_discipline_witness :
    (endpoint_write idProt 2 12 grpc_endpoint_op_status.DONE [[1, 2, 3]] epW0
        = some (grpc_endpoint_op_status.DONE, epW1, evsW3) ∧
      lockCheck evsW3 = true) ∧
    (on_read idProt 2 12 true { epW0 with source_buffer := [[1, 2], [3]] }
        = some (true, epR1, evsR7) ∧
      lockCheck evsR7 = true) :=
  ⟨⟨by decide,
      (C8_mutex_discipline idProt 2 12).1 grpc_endpoint_op_status.DONE
        [[1, 2, 3]] epW0 (grpc_endpoint_op_status.DONE, epW1, evsW3)
        (by decide)⟩,
    ⟨by decide,
      (C8_mutex_discipline idProt 2 12).2 true
        { epW0 with source_buffer := [[1, 2], [3]] } (true, epR1, evsR7)
        (by decide)⟩⟩

/-- Witness for C9 on a synchronous immediate-completion read and on the
resumption callback of a pending read. -/
theorem C9_completion_exactly_once_witness :
    (endpoint_read idProt 2 12 (wrapped_read_result.DONE [[7, 8]]) epW0
      = some (grpc_endpoint_op_status.DONE,
          { epW0 with read_buffer := [[7, 8]] }, evsR9) ∧
      evsR9.countP isReadCbCall = 0) ∧
    (on_read_cb idProt 2 12 [[7, 8]] true epW0
      = some (out5.1, true, evsR9b) ∧
      evsR9b.countP isReadCbCall = 1) :=
  ⟨⟨by decide,
      (C9_completion_exactly_once idProt 2 12).1
        (wrapped_read_result.DONE [[7, 8]]) epW0
        (grpc_endpoint_op_status.DONE,
          { epW0 with read_buffer := [[7, 8]] }, evsR9) (by decide)⟩,
    ⟨by decide,
      (C9_completion_exactly_once idProt 2 12).2 [[7, 8]] true epW0
        (out5.1, true, evsR9b) (by decide)⟩⟩

/-- Witness for C10 on the concrete write run. -/
theorem C10_write_keeps_refcount_witness :
    endpoint_write idProt 2 12 grpc_endpoint_op_status.DONE [[1, 2, 3]] epW0
      = some (grpc_endpoint_op_status.DONE, epW1, evsW3) ∧
    (epW1.refCount = epW0.refCount ∧ evsW3.countP isRefChange = 0) :=
  ⟨by decide,
    C10_write_keeps_refcount idProt 2 12 grpc_endpoint_op_status.DONE
      [[1, 2, 3]] epW0 (grpc_endpoint_op_status.DONE, epW1, evsW3)
      (by decide)⟩

end GrpcSecureEndpoint
